import Mathlib

/-!
NATS auth callout (OIDC): scope resolution and the decision pipeline.

A shallow embedding of `auth-service/permissions.go`, `auth-service/oidc.go`,
`auth-service/audit.go`, `auth-service/authorizer.go` and the request handler of
`auth-service/main.go`, followed by theorems about the embedded functions.

Conventions of the embedding:
* Go slices are `List`s (a `nil` slice is `[]`), Go strings are `String`s.
* The `map[string]bool` called `seen` is the list of the keys it maps to `true`.
* A Go result pair `(value, error)` that is always one or the other is an `Except`;
  the authorizer's `(string, error)` is kept as a pair, as its callers read both.
* Calls into the `AuditPublisher` are collected, in order, in a list.
* A call that ends in a panic of the Go runtime (a nil pointer dereference) is an outcome
  with `panicked` true; it returns nothing, sends nothing and publishes nothing more.
* The `jwt` library is modelled as far as the service observes it: its constructors
  return nil for an empty subject, `Encode` stamps user claims with its own clock reading
  and returns a token of three chunks, and what the key pair makes of given claims
  (the chunks or an error) is a parameter.
* `log.Printf` output is not part of the model.
-/

set_option autoImplicit false
set_option linter.unusedVariables false

namespace AuthService

/-! ## permissions.go -/

/-- ScopeMapping defines NATS permissions granted by an OIDC scope. -/
structure ScopeMapping where
  PubAllow : List String := []
  SubAllow : List String := []
  deriving DecidableEq, Repr

/-- DefaultScopeMappings maps OIDC scopes to NATS pub/sub permissions
(the entries of the Go map literal, keys pairwise distinct). -/
def DefaultScopeMappings : List (String × ScopeMapping) :=
  [ ("nats:admin",     { PubAllow := [">"], SubAllow := [">"] }),
    ("nats:publish",   { PubAllow := ["orders.>", "events.>"], SubAllow := ["_INBOX.>"] }),
    ("nats:subscribe", { SubAllow := ["orders.>", "events.>", "_INBOX.>"] }) ]

/-- ResolvedPermissions holds the merged pub/sub permission lists. -/
structure ResolvedPermissions where
  PubAllow : List String := []
  SubAllow : List String := []
  deriving DecidableEq, Repr

/-- The two variables the loops of `ResolvePermissions` update: the `seen` map
(as the list of its keys) and `result`. -/
structure ResolveState where
  seen : List String := []
  result : ResolvedPermissions := {}
  deriving DecidableEq, Repr

/-- Body of `for _, s := range mapping.PubAllow`. -/
def addPub (st : ResolveState) (s : String) : ResolveState :=
  let key := "pub:" ++ s
  if st.seen.contains key then st
  else { seen := key :: st.seen,
         result := { st.result with PubAllow := st.result.PubAllow ++ [s] } }

/-- Body of `for _, s := range mapping.SubAllow`. -/
def addSub (st : ResolveState) (s : String) : ResolveState :=
  let key := "sub:" ++ s
  if st.seen.contains key then st
  else { seen := key :: st.seen,
         result := { st.result with SubAllow := st.result.SubAllow ++ [s] } }

/-- Body of `for _, scope := range scopes`. -/
def resolveScope (st : ResolveState) (scope : String) : ResolveState :=
  match DefaultScopeMappings.lookup scope with
  | none => st
  | some mapping => mapping.SubAllow.foldl addSub (mapping.PubAllow.foldl addPub st)

/-- ResolvePermissions merges all scope mappings for the given scopes. -/
def ResolvePermissions (scopes : List String) : ResolvedPermissions :=
  (scopes.foldl resolveScope {}).result

/-- HasPermissions returns true if any permissions were resolved. -/
def ResolvedPermissions.HasPermissions (p : ResolvedPermissions) : Bool :=
  decide (p.PubAllow.length > 0) || decide (p.SubAllow.length > 0)

/-! ## oidc.go -/

/-- Go `strings.Split` on the fields of a character sequence, for a one-character
separator: the pieces between consecutive separators, `n + 1` pieces for `n` separators. -/
def splitChars (sep : Char) : List Char → List (List Char)
  | [] => [[]]
  | c :: cs =>
    if c = sep then [] :: splitChars sep cs
    else
      match splitChars sep cs with
      | [] => [[c]]
      | f :: fs => (c :: f) :: fs

/-- Go `strings.Split(s, " ")`. -/
def stringsSplitSpace (s : String) : List String :=
  (splitChars ' ' s.data).map String.mk

/-- OIDCClaims represents the claims extracted from a validated OIDC token. -/
structure OIDCClaims where
  Subject : String := ""
  Email : String := ""
  Scope : String := ""
  Scopes : List String := []
  ClientID : String := ""
  deriving DecidableEq, Repr

/-- The verified token returned by the go-oidc verifier, as far as the service uses it:
the outcome of `idToken.Claims(&claims)` on a zero `OIDCClaims`, which is an error or
the JSON-tagged fields `sub`, `email`, `scope`, `client_id` (field `Scopes` is tagged
`json:"-"` and stays nil). -/
structure IDToken where
  sub : String := ""
  email : String := ""
  scope : String := ""
  client_id : String := ""
  claimsErr : Option String := none
  deriving DecidableEq, Repr

/-- Method `Claims` of the verified token. -/
def IDToken.Claims (t : IDToken) : Except String OIDCClaims :=
  match t.claimsErr with
  | some e => .error e
  | none => .ok { Subject := t.sub, Email := t.email, Scope := t.scope, ClientID := t.client_id }

/-- OIDCVerifier wraps the go-oidc verifier with issuer metadata. The library verifier
(signature, expiry and audience checks under the request context) is the function
`verifier`, from the raw token to the verified token or an error. -/
structure OIDCVerifier where
  verifier : String → Except String IDToken
  issuerURL : String

/-- Verify validates the token and extracts claims. -/
def OIDCVerifier.Verify (v : OIDCVerifier) (rawToken : String) : Except String OIDCClaims :=
  match v.verifier rawToken with
  | .error err => .error ("token verification failed: " ++ err)
  | .ok idToken =>
    match idToken.Claims with
    | .error err => .error ("failed to parse token claims: " ++ err)
    | .ok claims =>
      let claims := if claims.Scope ≠ "" then
          { claims with Scopes := stringsSplitSpace claims.Scope } else claims
      let claims := if claims.Subject = "" ∧ claims.ClientID ≠ "" then
          { claims with Subject := claims.ClientID } else claims
      .ok claims

/-- Formatting of the `%w` operand `lastErr` of `fmt.Errorf`, which is nil when the
loop body never ran. -/
def fmtLastErr : Option String → String
  | none => "%!w(<nil>)"
  | some err => err

/-- The loop of `ValidateToken` from a given value of `lastErr`. -/
def validateLoop (rawToken : String) :
    List OIDCVerifier → Option String → Except String (OIDCClaims × String)
  | [], lastErr =>
    .error ("token validation failed against all issuers: " ++ fmtLastErr lastErr)
  | v :: vs, _ =>
    match v.Verify rawToken with
    | .ok claims => .ok (claims, v.issuerURL)
    | .error err => validateLoop rawToken vs (some err)

/-- ValidateToken tries each verifier in order, returning claims from the first success. -/
def ValidateToken (rawToken : String) (verifiers : List OIDCVerifier) :
    Except String (OIDCClaims × String) :=
  validateLoop rawToken verifiers none

/-! ## audit.go -/

/-- A `time.Time`, as nanoseconds since the Unix epoch. -/
abbrev Time := Int

/-- Go `time.Duration`, in nanoseconds. -/
abbrev Duration := Int

def Minute : Duration := 60 * 1000000000
def Hour : Duration := 60 * Minute

/-- Method `Add` of `time.Time`. -/
def Time.Add (t : Time) (d : Duration) : Time := t + d

/-- Method `Unix` of `time.Time`: whole seconds since the epoch. -/
def Time.Unix (t : Time) : Int := t / 1000000000

/-- GrantedPerms represents the NATS permissions granted to a user. -/
structure GrantedPerms where
  PubAllow : List String := []
  SubAllow : List String := []
  deriving DecidableEq, Repr

/-- AuditEvent represents an authentication/authorization decision. `Timestamp` is
`none` for the zero time, `Permissions` is `none` for the nil pointer. -/
structure AuditEvent where
  Timestamp : Option Time := none
  UserNKey : String := ""
  ClientIP : String := ""
  TokenIssuer : String := ""
  TokenSub : String := ""
  Scopes : List String := []
  Decision : String := ""
  Reason : String := ""
  Permissions : Option GrantedPerms := none
  deriving DecidableEq, Repr

/-- One call of `AuditPublisher.publish`: the subject and the event handed to it. -/
structure AuditMessage where
  subject : String
  event : AuditEvent
  deriving DecidableEq, Repr

/-- PublishSuccess publishes a successful auth event; `now` is its `time.Now()`. -/
def PublishSuccess (now : Time) (event : AuditEvent) : AuditMessage :=
  let event := { event with Decision := "success" }
  let event := { event with Timestamp := some now }
  { subject := "auth.audit.success", event := event }

/-- PublishFailure publishes a failed auth event; `now` is its `time.Now()`. -/
def PublishFailure (now : Time) (event : AuditEvent) : AuditMessage :=
  let event := { event with Decision := "failure" }
  let event := { event with Timestamp := some now }
  { subject := "auth.audit.failure", event := event }

/-! ## Types of the `jwt` and `nkeys` libraries, as far as the service uses them -/

/-- Connect options of an authorization request. -/
structure ConnectOptions where
  Token : String := ""
  Password : String := ""
  Name : String := ""
  deriving DecidableEq, Repr

/-- Client information of an authorization request. -/
structure ClientInformation where
  Host : String := ""
  deriving DecidableEq, Repr

/-- Identity of the server that sent an authorization request. -/
structure ServerID where
  ID : String := ""
  deriving DecidableEq, Repr

/-- The decoded `jwt.AuthorizationRequestClaims`. -/
structure AuthorizationRequestClaims where
  UserNkey : String := ""
  Server : ServerID := {}
  ClientInformation : ClientInformation := {}
  ConnectOptions : ConnectOptions := {}
  deriving DecidableEq, Repr

/-- Method `Add` of `jwt.StringList`: appends, in order, each argument that is not
the empty string and is not yet in the list. -/
def StringList.Add (u : List String) (p : List String) : List String :=
  p.foldl (fun u v => if !u.contains v && v != "" then u ++ [v] else u) u

/-- A `jwt.Permission`: allow and deny lists of subjects. -/
structure Permission where
  Allow : List String := []
  Deny : List String := []
  deriving DecidableEq, Repr

/-- A `jwt.ResponsePermission`. -/
structure ResponsePermission where
  MaxMsgs : Int
  Expires : Duration
  deriving DecidableEq, Repr

/-- The fields of `jwt.UserClaims` that the authorizer sets. -/
structure UserClaims where
  Subject : String := ""
  Name : String := ""
  Audience : String := ""
  Expires : Int := 0
  IssuedAt : Int := 0
  Pub : Permission := {}
  Sub : Permission := {}
  Resp : Option ResponsePermission := none
  deriving DecidableEq, Repr

/-- The pointer `jwt.NewUserClaims(subject)` returns: nil (`none`) for the empty
subject, else claims with the subject set and every other field modelled here at its
zero value. -/
def NewUserClaims (subject : String) : Option UserClaims :=
  if subject = "" then none else some { Subject := subject }

/-- The fields of `jwt.AuthorizationResponseClaims` that the handler sets. -/
structure AuthorizationResponseClaims where
  Subject : String := ""
  Audience : String := ""
  Jwt : String := ""
  Error : String := ""
  deriving DecidableEq, Repr

/-- The pointer `jwt.NewAuthorizationResponseClaims(user)` returns: nil (`none`) for
the empty user, else claims with the subject set and every other field modelled here at
its zero value. -/
def NewAuthorizationResponseClaims (user : String) : Option AuthorizationResponseClaims :=
  if user = "" then none else some { Subject := user }

/-- The three chunks of an encoded token: the serialised header, the serialised claims
and the signature over the two. -/
structure Chunks where
  header : String
  payload : String
  signature : String
  deriving DecidableEq, Repr

/-- The token `Encode` returns for its chunks: `header.payload.signature`. -/
def Chunks.token (c : Chunks) : String :=
  c.header ++ "." ++ c.payload ++ "." ++ c.signature

/-- The signing key pair, as the two functions the service uses it for: what
validating, serialising and signing user claims, and authorization response claims,
with it gives, the chunks of the token or an error. -/
structure KeyPair where
  encodeUser : UserClaims → Except String Chunks
  encodeResponse : AuthorizationResponseClaims → Except String Chunks

/-- What `Encode` writes into user claims before it serialises and signs them: the
issued-at becomes the reading `now` of the clock that `Encode` takes itself
(`time.Now().UTC().Unix()`), whatever it was before. -/
def UserClaims.stamp (uc : UserClaims) (now : Time) : UserClaims :=
  { uc with IssuedAt := now.Unix }

/-- Method `Encode` of the user claims; `now` is its `time.Now()`. The certificate it
returns is the token of the stamped claims. -/
def UserClaims.Encode (uc : UserClaims) (pair : KeyPair) (now : Time) : Except String String :=
  match pair.encodeUser (uc.stamp now) with
  | .error err => .error err
  | .ok chunks => .ok chunks.token

/-- Method `Encode` of the authorization response claims. -/
def AuthorizationResponseClaims.Encode (rc : AuthorizationResponseClaims) (pair : KeyPair) :
    Except String String :=
  match pair.encodeResponse rc with
  | .error err => .error err
  | .ok chunks => .ok chunks.token

/-! ## authorizer.go -/

/-- Formatting of a `[]string` under the verb `%v`. -/
def fmtStrings (xs : List String) : String := "[" ++ " ".intercalate xs ++ "]"

/-- The value of the panic of the Go runtime on a nil pointer dereference. -/
def nilDereference : String :=
  "runtime error: invalid memory address or nil pointer dereference"

/-- What one call of the authorizer function does: the pair `(string, error)` it returns,
the audit messages it published, in order, and the user claims on which it called
`Encode`, if it came that far. When `panicked` is true the call did not return: it
ended in a panic, whose value is in `err`. -/
structure AuthorizerOutcome where
  jwt : String
  err : Option String
  audit : List AuditMessage
  signed : Option UserClaims
  panicked : Bool := false
  deriving DecidableEq, Repr

/-- The first statements of the authorizer function: the credential is the token of the
connect options, or their password when the token is empty. -/
def extractRawToken (req : AuthorizationRequestClaims) : String :=
  let rawToken := req.ConnectOptions.Token
  if rawToken = "" then req.ConnectOptions.Password else rawToken

/-- AuthorizerFunc validates an auth request and returns a signed UserClaims JWT. -/
abbrev AuthorizerFunc := AuthorizationRequestClaims → AuthorizerOutcome

/-- The block `Build UserClaims JWT` of the authorizer function, up to the call of
`Encode`: the user claims built for the request, the verified claims and the resolved
permissions. `clock 0` and `clock 1` are the two `time.Now()` of the block. The result
is `none` when `jwt.NewUserClaims` returned nil, where the first assignment to a field
of `uc` panics. -/
def buildUserClaims (req : AuthorizationRequestClaims) (claims : OIDCClaims)
    (perms : ResolvedPermissions) (clock : Nat → Time) : Option UserClaims :=
  match NewUserClaims req.UserNkey with
  | none => none
  | some uc =>
    let uc := { uc with Name := claims.Subject }
    let uc := { uc with Audience := "APP" }
    let uc := { uc with Expires := ((clock 0).Add (1 * Hour)).Unix }
    let uc := { uc with IssuedAt := (clock 1).Unix }
    let uc := { uc with Pub := { uc.Pub with Allow := StringList.Add uc.Pub.Allow perms.PubAllow } }
    let uc := { uc with Sub := { uc.Sub with Allow := StringList.Add uc.Sub.Allow perms.SubAllow } }
    let uc := { uc with Resp := some { MaxMsgs := 1, Expires := 5 * Minute } }
    some uc

/-- NewAuthorizer returns an AuthorizerFunc that validates OIDC tokens and maps scopes to
NATS permissions. `clock k` is the value of the k-th `time.Now()` of the call
(counting from 0): on the way to a certificate these are the two readings of the
authorizer function, the reading of `Encode` and the reading of `PublishSuccess`. -/
def NewAuthorizer (verifiers : List OIDCVerifier) (signingKey : KeyPair)
    (issuerPubKey : String) (clock : Nat → Time) : AuthorizerFunc := fun req =>
  let rawToken := extractRawToken req
  let clientIP := req.ClientInformation.Host
  if rawToken = "" then
    { jwt := "", err := some "no authentication token provided",
      audit := [PublishFailure (clock 0)
        { UserNKey := req.UserNkey, ClientIP := clientIP,
          Reason := "no authentication token provided" }],
      signed := none }
  else
    match ValidateToken rawToken verifiers with
    | .error err =>
      { jwt := "", err := some ("authentication failed: " ++ err),
        audit := [PublishFailure (clock 0)
          { UserNKey := req.UserNkey, ClientIP := clientIP,
            Reason := "token validation failed: " ++ err }],
        signed := none }
    | .ok (claims, issuer) =>
      let perms := ResolvePermissions claims.Scopes
      if !perms.HasPermissions then
        { jwt := "",
          err := some ("no authorized NATS scopes found for subject " ++ claims.Subject
            ++ " (scopes: " ++ fmtStrings claims.Scopes ++ ")"),
          audit := [PublishFailure (clock 0)
            { UserNKey := req.UserNkey, ClientIP := clientIP, TokenIssuer := issuer,
              TokenSub := claims.Subject, Scopes := claims.Scopes,
              Reason := "no authorized NATS scopes in token" }],
          signed := none }
      else
        match buildUserClaims req claims perms clock with
        | none =>
          { jwt := "", err := some nilDereference, audit := [], signed := none,
            panicked := true }
        | some uc =>
          match uc.Encode signingKey (clock 2) with
          | .error err =>
            { jwt := "", err := some ("failed to sign user claims: " ++ err),
              audit := [], signed := some uc }
          | .ok encoded =>
            { jwt := encoded, err := none,
              audit := [PublishSuccess (clock 3)
                { UserNKey := req.UserNkey, ClientIP := clientIP, TokenIssuer := issuer,
                  TokenSub := claims.Subject, Scopes := claims.Scopes,
                  Permissions := some { PubAllow := perms.PubAllow,
                                        SubAllow := perms.SubAllow } }],
              signed := some uc }

/-! ## main.go: the request handler -/

/-- A reply handed to `msg.Respond`: the response claims that were encoded and the
signed token that is the payload of the reply. -/
structure Reply where
  claims : AuthorizationResponseClaims
  token : String
  deriving DecidableEq, Repr

/-- What one call of `handleAuthRequest` does: the reply it sent, if any, and the audit
messages published by the authorizer it ran. When `panicked` is true the call ended
in a panic. -/
structure HandlerOutcome where
  reply : Option Reply
  audit : List AuditMessage
  panicked : Bool := false
  deriving DecidableEq, Repr

/-- Function `respondWithError`: the reply it sends, none when encoding fails. The
response claims are never nil here, as the user they are made for is not empty. -/
def respondWithError (signingKey : KeyPair) (issuerPubKey userNKey serverID errMsg : String) :
    Option Reply :=
  let userNKey := if userNKey = "" then "UNKNOWN" else userNKey
  match NewAuthorizationResponseClaims userNKey with
  | none => none
  | some rc =>
    let rc := { rc with Audience := serverID }
    let rc := { rc with Error := errMsg }
    match rc.Encode signingKey with
    | .error _ => none
    | .ok token => some { claims := rc, token := token }

/-- Function `handleAuthRequest` on the payload `msgData` of the inbound message;
`decode` is `jwt.DecodeAuthorizationRequestClaims`. A panic of the authorizer ends the
call, and so does a nil pointer from `jwt.NewAuthorizationResponseClaims`, at the
assignment of the audience. -/
def handleAuthRequest (decode : String → Except String AuthorizationRequestClaims)
    (msgData : String) (authorizerFn : AuthorizerFunc) (signingKey : KeyPair)
    (issuerPubKey : String) : HandlerOutcome :=
  match decode msgData with
  | .error err =>
    { reply := respondWithError signingKey issuerPubKey "" "" ("invalid request: " ++ err),
      audit := [] }
  | .ok reqClaims =>
    let userNKey := reqClaims.UserNkey
    let serverID := reqClaims.Server.ID
    let out := authorizerFn reqClaims
    if out.panicked then { reply := none, audit := out.audit, panicked := true }
    else
      match out.err with
      | some err =>
        { reply := respondWithError signingKey issuerPubKey userNKey serverID err,
          audit := out.audit }
      | none =>
        let userJWT := out.jwt
        match NewAuthorizationResponseClaims userNKey with
        | none => { reply := none, audit := out.audit, panicked := true }
        | some rc =>
          let rc := { rc with Audience := reqClaims.Server.ID }
          let rc := { rc with Jwt := userJWT }
          match rc.Encode signingKey with
          | .error _ =>
            { reply := respondWithError signingKey issuerPubKey userNKey serverID
                "internal error",
              audit := out.audit }
          | .ok token => { reply := some { claims := rc, token := token }, audit := out.audit }

/-! ## Sample configurations for concrete checks -/

/-- A verifier that rejects every token. -/
def sampleRejecting : OIDCVerifier :=
  { verifier := fun _ => .error "oidc: malformed jwt", issuerURL := "https://issuer-a.example" }

/-- A verifier that accepts every token for subject `svc-1` with raw scope `scope`. -/
def sampleAccepting (scope : String) : OIDCVerifier :=
  { verifier := fun _ => .ok { sub := "svc-1", scope := scope },
    issuerURL := "https://issuer-b.example" }

/-- A signing key that signs everything. -/
def sampleKey : KeyPair :=
  { encodeUser := fun uc =>
      .ok { header := "hdr", payload := "user:" ++ uc.Subject, signature := "sig" },
    encodeResponse := fun rc =>
      .ok { header := "hdr", payload := "response:" ++ rc.Subject, signature := "sig" } }

/-- A signing key whose `Encode` of user claims fails, as the one of a key pair that is
not an account key does. -/
def sampleFailingKey : KeyPair :=
  { encodeUser := fun _ => .error "unable to validate expected prefixes",
    encodeResponse := fun rc =>
      .ok { header := "hdr", payload := "response:" ++ rc.Subject, signature := "sig" } }

/-- A clock that advances by one millisecond between readings. -/
def sampleClock (k : Nat) : Time := 1700000000000000000 + 1000000 * k

/-- A request that carries a token. -/
def sampleRequest : AuthorizationRequestClaims :=
  { UserNkey := "UABC", Server := { ID := "NSRV" }, ClientInformation := { Host := "10.0.0.7" },
    ConnectOptions := { Token := "tok", Name := "demo" } }

/-- A request that carries neither token nor password. -/
def sampleBareRequest : AuthorizationRequestClaims :=
  { UserNkey := "UABC", Server := { ID := "NSRV" }, ClientInformation := { Host := "10.0.0.7" },
    ConnectOptions := { Name := "demo" } }

/-- A clock whose readings are one hour apart. -/
def sampleSlowClock (k : Nat) : Time := 1700000000000000000 + 3600000000000 * k

/-- A clock on which `Encode` reads the time two hours after the authorizer function
read it twice, one second apart. -/
def sampleStalledClock (k : Nat) : Time :=
  if k = 0 then 1700000000000000000
  else if k = 1 then 1700000001000000000
  else 1700007200000000000

/-- A signing key with which no claims can be encoded. -/
def sampleDeadKey : KeyPair :=
  { encodeUser := fun _ => .error "unable to validate expected prefixes",
    encodeResponse := fun _ => .error "unable to validate expected prefixes" }

/-- A signing key with which response claims that embed a certificate cannot be encoded,
and all other claims can. -/
def sampleEnvelopeFailingKey : KeyPair :=
  { encodeUser := fun uc =>
      .ok { header := "hdr", payload := "user:" ++ uc.Subject, signature := "sig" },
    encodeResponse := fun rc =>
      if rc.Jwt = "" then
        .ok { header := "hdr", payload := "response:" ++ rc.Subject, signature := "sig" }
      else .error "claims too large" }

/-- A decoder that accepts the payload `request` as the sample request and rejects
every other payload. -/
def sampleDecode (data : String) : Except String AuthorizationRequestClaims :=
  if data = "request" then .ok sampleRequest else .error "expected 3 chunks"

/-- The reply to the sample request when the authorizer succeeds. -/
def sampleCertificateReply : Reply :=
  { claims := { Subject := "UABC", Audience := "NSRV", Jwt := "hdr.user:UABC.sig" },
    token := "hdr.response:UABC.sig" }

/-- The reply to the sample request when every verifier rejects its token. -/
def sampleDenialReply : Reply :=
  { claims := { Subject := "UABC", Audience := "NSRV",
                Error := "authentication failed: token validation failed against all issuers: token verification failed: oidc: malformed jwt" },
    token := "hdr.response:UABC.sig" }

/-- The reply to the sample request when the authorizer succeeds and the response claims
that embed its certificate cannot be encoded. -/
def sampleInternalErrorReply : Reply :=
  { claims := { Subject := "UABC", Audience := "NSRV", Error := "internal error" },
    token := "hdr.response:UABC.sig" }

/-! ## The loop invariant of `ResolvePermissions` -/

/-- The `seen` map holds exactly the keys of the patterns appended so far, and no
pattern was appended twice to the same list. -/
structure ResolveState.Inv (st : ResolveState) : Prop where
  pub_iff : ∀ s, "pub:" ++ s ∈ st.seen ↔ s ∈ st.result.PubAllow
  sub_iff : ∀ s, "sub:" ++ s ∈ st.seen ↔ s ∈ st.result.SubAllow
  pub_nodup : st.result.PubAllow.Nodup
  sub_nodup : st.result.SubAllow.Nodup

/-- The patterns a scope contributes to the publish list: those of its mapping, none
when the scope is not a key of the table. -/
def scopePub (scope : String) : List String :=
  match DefaultScopeMappings.lookup scope with
  | none => []
  | some mapping => mapping.PubAllow

/-- The patterns a scope contributes to the subscribe list. -/
def scopeSub (scope : String) : List String :=
  match DefaultScopeMappings.lookup scope with
  | none => []
  | some mapping => mapping.SubAllow

/-! ## Well-formed raw scope strings -/

/-- A raw scope string, as its characters, in the form of a space-delimited list: not
empty, no space at the start, no space at the end and no two spaces in a row. -/
def SpaceDelimited (cs : List Char) : Prop :=
  cs ≠ [] ∧ cs.head? ≠ some ' ' ∧ cs.getLast? ≠ some ' ' ∧ ¬ [' ', ' '] <:+: cs

instance SpaceDelimited.decidable (cs : List Char) : Decidable (SpaceDelimited cs) := by
  unfold SpaceDelimited
  infer_instance

/-! ## Keys of the `seen` map -/

theorem pub_key_inj (s t : String) (h : "pub:" ++ s = "pub:" ++ t) : s = t := by
  have := congrArg String.data h
  simp [String.data_append] at this
  exact String.ext this

theorem sub_key_inj (s t : String) (h : "sub:" ++ s = "sub:" ++ t) : s = t := by
  have := congrArg String.data h
  simp [String.data_append] at this
  exact String.ext this

theorem pub_key_ne_sub_key (s t : String) : "pub:" ++ s ≠ "sub:" ++ t := by
  intro h
  have := congrArg String.data h
  simp [String.data_append] at this

/-! ## The loop invariant is established and preserved -/

theorem inv_init : ResolveState.Inv {} :=
  ⟨by simp, by simp, by simp, by simp⟩

theorem addPub_of_seen (st : ResolveState) (s : String) (hk : "pub:" ++ s ∈ st.seen) :
    addPub st s = st := by
  simp [addPub, hk]

theorem addPub_of_not_seen (st : ResolveState) (s : String) (hk : "pub:" ++ s ∉ st.seen) :
    addPub st s = { seen := ("pub:" ++ s) :: st.seen,
                    result := { st.result with PubAllow := st.result.PubAllow ++ [s] } } := by
  simp [addPub, hk]

theorem addSub_of_seen (st : ResolveState) (s : String) (hk : "sub:" ++ s ∈ st.seen) :
    addSub st s = st := by
  simp [addSub, hk]

theorem addSub_of_not_seen (st : ResolveState) (s : String) (hk : "sub:" ++ s ∉ st.seen) :
    addSub st s = { seen := ("sub:" ++ s) :: st.seen,
                    result := { st.result with SubAllow := st.result.SubAllow ++ [s] } } := by
  simp [addSub, hk]

theorem addPub_spec (st : ResolveState) (s : String) (h : st.Inv) :
    (addPub st s).Inv
    ∧ (∀ p, p ∈ (addPub st s).result.PubAllow ↔ p ∈ st.result.PubAllow ∨ p = s)
    ∧ (addPub st s).result.SubAllow = st.result.SubAllow := by
  by_cases hk : "pub:" ++ s ∈ st.seen
  · have hs : s ∈ st.result.PubAllow := (h.pub_iff s).1 hk
    rw [addPub_of_seen st s hk]
    refine ⟨h, fun p => ⟨Or.inl, ?_⟩, rfl⟩
    rintro (hp | rfl)
    · exact hp
    · exact hs
  · have hs : s ∉ st.result.PubAllow := fun hs => hk ((h.pub_iff s).2 hs)
    rw [addPub_of_not_seen st s hk]
    refine ⟨⟨?_, ?_, ?_, h.sub_nodup⟩, fun p => by simp, rfl⟩
    · intro t
      show "pub:" ++ t ∈ ("pub:" ++ s) :: st.seen ↔ t ∈ st.result.PubAllow ++ [s]
      rw [List.mem_cons, List.mem_append, List.mem_singleton]
      constructor
      · rintro (ht | ht)
        · exact Or.inr (pub_key_inj _ _ ht)
        · exact Or.inl ((h.pub_iff t).1 ht)
      · rintro (ht | rfl)
        · exact Or.inr ((h.pub_iff t).2 ht)
        · exact Or.inl rfl
    · intro t
      show "sub:" ++ t ∈ ("pub:" ++ s) :: st.seen ↔ t ∈ st.result.SubAllow
      rw [List.mem_cons]
      constructor
      · rintro (ht | ht)
        · exact absurd ht.symm (pub_key_ne_sub_key _ _)
        · exact (h.sub_iff t).1 ht
      · exact fun ht => Or.inr ((h.sub_iff t).2 ht)
    · show (st.result.PubAllow ++ [s]).Nodup
      rw [List.nodup_append]
      refine ⟨h.pub_nodup, List.nodup_singleton s, ?_⟩
      intro a ha hb
      rw [List.mem_singleton] at hb
      exact hs (hb ▸ ha)

theorem addSub_spec (st : ResolveState) (s : String) (h : st.Inv) :
    (addSub st s).Inv
    ∧ (∀ p, p ∈ (addSub st s).result.SubAllow ↔ p ∈ st.result.SubAllow ∨ p = s)
    ∧ (addSub st s).result.PubAllow = st.result.PubAllow := by
  by_cases hk : "sub:" ++ s ∈ st.seen
  · have hs : s ∈ st.result.SubAllow := (h.sub_iff s).1 hk
    rw [addSub_of_seen st s hk]
    refine ⟨h, fun p => ⟨Or.inl, ?_⟩, rfl⟩
    rintro (hp | rfl)
    · exact hp
    · exact hs
  · have hs : s ∉ st.result.SubAllow := fun hs => hk ((h.sub_iff s).2 hs)
    rw [addSub_of_not_seen st s hk]
    refine ⟨⟨?_, ?_, h.pub_nodup, ?_⟩, fun p => by simp, rfl⟩
    · intro t
      show "pub:" ++ t ∈ ("sub:" ++ s) :: st.seen ↔ t ∈ st.result.PubAllow
      rw [List.mem_cons]
      constructor
      · rintro (ht | ht)
        · exact absurd ht (pub_key_ne_sub_key _ _)
        · exact (h.pub_iff t).1 ht
      · exact fun ht => Or.inr ((h.pub_iff t).2 ht)
    · intro t
      show "sub:" ++ t ∈ ("sub:" ++ s) :: st.seen ↔ t ∈ st.result.SubAllow ++ [s]
      rw [List.mem_cons, List.mem_append, List.mem_singleton]
      constructor
      · rintro (ht | ht)
        · exact Or.inr (sub_key_inj _ _ ht)
        · exact Or.inl ((h.sub_iff t).1 ht)
      · rintro (ht | rfl)
        · exact Or.inr ((h.sub_iff t).2 ht)
        · exact Or.inl rfl
    · show (st.result.SubAllow ++ [s]).Nodup
      rw [List.nodup_append]
      refine ⟨h.sub_nodup, List.nodup_singleton s, ?_⟩
      intro a ha hb
      rw [List.mem_singleton] at hb
      exact hs (hb ▸ ha)

theorem foldl_addPub_spec (l : List String) (st : ResolveState) (h : st.Inv) :
    (l.foldl addPub st).Inv
    ∧ (∀ p, p ∈ (l.foldl addPub st).result.PubAllow ↔ p ∈ st.result.PubAllow ∨ p ∈ l)
    ∧ (l.foldl addPub st).result.SubAllow = st.result.SubAllow := by
  induction l generalizing st with
  | nil => exact ⟨h, fun p => by simp, rfl⟩
  | cons a l ih =>
    obtain ⟨h1, h2, h3⟩ := addPub_spec st a h
    obtain ⟨i1, i2, i3⟩ := ih (addPub st a) h1
    refine ⟨i1, fun p => ?_, by rw [List.foldl_cons, i3, h3]⟩
    rw [List.foldl_cons, i2, h2, List.mem_cons, or_assoc]

theorem foldl_addSub_spec (l : List String) (st : ResolveState) (h : st.Inv) :
    (l.foldl addSub st).Inv
    ∧ (∀ p, p ∈ (l.foldl addSub st).result.SubAllow ↔ p ∈ st.result.SubAllow ∨ p ∈ l)
    ∧ (l.foldl addSub st).result.PubAllow = st.result.PubAllow := by
  induction l generalizing st with
  | nil => exact ⟨h, fun p => by simp, rfl⟩
  | cons a l ih =>
    obtain ⟨h1, h2, h3⟩ := addSub_spec st a h
    obtain ⟨i1, i2, i3⟩ := ih (addSub st a) h1
    refine ⟨i1, fun p => ?_, by rw [List.foldl_cons, i3, h3]⟩
    rw [List.foldl_cons, i2, h2, List.mem_cons, or_assoc]

theorem resolveScope_spec (st : ResolveState) (scope : String) (h : st.Inv) :
    (resolveScope st scope).Inv
    ∧ (∀ p, p ∈ (resolveScope st scope).result.PubAllow ↔
        p ∈ st.result.PubAllow ∨ p ∈ scopePub scope)
    ∧ (∀ p, p ∈ (resolveScope st scope).result.SubAllow ↔
        p ∈ st.result.SubAllow ∨ p ∈ scopeSub scope) := by
  unfold resolveScope scopePub scopeSub
  cases hl : DefaultScopeMappings.lookup scope with
  | none => exact ⟨h, fun p => by simp, fun p => by simp⟩
  | some mapping =>
    obtain ⟨h1, h2, h3⟩ := foldl_addPub_spec mapping.PubAllow st h
    obtain ⟨i1, i2, i3⟩ := foldl_addSub_spec mapping.SubAllow _ h1
    refine ⟨i1, fun p => ?_, fun p => ?_⟩
    · simp only [i3, h2]
    · simp only [i2, h3]

theorem foldl_resolveScope_spec (scopes : List String) (st : ResolveState) (h : st.Inv) :
    (scopes.foldl resolveScope st).Inv
    ∧ (∀ p, p ∈ (scopes.foldl resolveScope st).result.PubAllow ↔
        p ∈ st.result.PubAllow ∨ ∃ scope ∈ scopes, p ∈ scopePub scope)
    ∧ (∀ p, p ∈ (scopes.foldl resolveScope st).result.SubAllow ↔
        p ∈ st.result.SubAllow ∨ ∃ scope ∈ scopes, p ∈ scopeSub scope) := by
  induction scopes generalizing st with
  | nil => exact ⟨h, fun p => by simp, fun p => by simp⟩
  | cons a l ih =>
    obtain ⟨h1, h2, h3⟩ := resolveScope_spec st a h
    obtain ⟨i1, i2, i3⟩ := ih (resolveScope st a) h1
    refine ⟨i1, fun p => ?_, fun p => ?_⟩
    · rw [List.foldl_cons, i2, h2]
      simp only [List.mem_cons, exists_eq_or_imp, or_assoc]
    · rw [List.foldl_cons, i3, h3]
      simp only [List.mem_cons, exists_eq_or_imp, or_assoc]

theorem mem_scopePub_iff (scope p : String) :
    p ∈ scopePub scope ↔
      ∃ mapping, DefaultScopeMappings.lookup scope = some mapping ∧ p ∈ mapping.PubAllow := by
  unfold scopePub
  cases DefaultScopeMappings.lookup scope <;> simp

theorem mem_scopeSub_iff (scope p : String) :
    p ∈ scopeSub scope ↔
      ∃ mapping, DefaultScopeMappings.lookup scope = some mapping ∧ p ∈ mapping.SubAllow := by
  unfold scopeSub
  cases DefaultScopeMappings.lookup scope <;> simp

theorem mem_resolve_pub (scopes : List String) (p : String) :
    p ∈ (ResolvePermissions scopes).PubAllow ↔ ∃ scope ∈ scopes, p ∈ scopePub scope := by
  have := (foldl_resolveScope_spec scopes {} inv_init).2.1 p
  simpa [ResolvePermissions] using this

theorem mem_resolve_sub (scopes : List String) (p : String) :
    p ∈ (ResolvePermissions scopes).SubAllow ↔ ∃ scope ∈ scopes, p ∈ scopeSub scope := by
  have := (foldl_resolveScope_spec scopes {} inv_init).2.2 p
  simpa [ResolvePermissions] using this

theorem lookup_sub_nonempty (scope : String) (mapping : ScopeMapping)
    (h : DefaultScopeMappings.lookup scope = some mapping) : mapping.SubAllow ≠ [] := by
  simp only [DefaultScopeMappings, List.lookup] at h
  split at h
  · cases h; simp
  · split at h
    · cases h; simp
    · split at h
      · cases h; simp
      · cases h

theorem mem_table_ne_empty (scope : String) (mapping : ScopeMapping)
    (h : DefaultScopeMappings.lookup scope = some mapping) :
    "" ∉ mapping.PubAllow ∧ "" ∉ mapping.SubAllow := by
  simp only [DefaultScopeMappings, List.lookup] at h
  split at h
  · cases h; exact ⟨by decide, by decide⟩
  · split at h
    · cases h; exact ⟨by decide, by decide⟩
    · split at h
      · cases h; exact ⟨by decide, by decide⟩
      · cases h

/-! ## Scope resolution: the claims -/

/-- C2: for every list of scopes `S` and every pattern `p`, `p` is in the publish-allow list
of `ResolvePermissions S` exactly when some element of `S` is a key of
`DefaultScopeMappings` whose `PubAllow` contains `p`, and likewise for the subscribe-allow
list and `SubAllow`; scopes that are not keys contribute nothing. On
`["nats:publish", "nats:subscribe"]` the result is publish-allow `orders.>`, `events.>`
and subscribe-allow `_INBOX.>`, `orders.>`, `events.>`. -/
theorem ResolvePermissions_mem_iff (S : List String) (p : String) :
    (p ∈ (ResolvePermissions S).PubAllow ↔
      ∃ scope ∈ S, ∃ mapping,
        DefaultScopeMappings.lookup scope = some mapping ∧ p ∈ mapping.PubAllow)
    ∧ (p ∈ (ResolvePermissions S).SubAllow ↔
      ∃ scope ∈ S, ∃ mapping,
        DefaultScopeMappings.lookup scope = some mapping ∧ p ∈ mapping.SubAllow)
    ∧ ResolvePermissions ["nats:publish", "nats:subscribe"]
        = { PubAllow := ["orders.>", "events.>"],
            SubAllow := ["_INBOX.>", "orders.>", "events.>"] } := by
  refine ⟨?_, ?_, by decide⟩
  · rw [mem_resolve_pub]
    simp only [mem_scopePub_iff]
  · rw [mem_resolve_sub]
    simp only [mem_scopeSub_iff]

/-- C8: for every list of scopes `S` and every permutation `S'` of it,
`ResolvePermissions S` and `ResolvePermissions S'` have the same set of publish-allow
patterns and the same set of subscribe-allow patterns. -/
theorem ResolvePermissions_perm (S S' : List String) (h : S.Perm S') (p : String) :
    (p ∈ (ResolvePermissions S).PubAllow ↔ p ∈ (ResolvePermissions S').PubAllow)
    ∧ (p ∈ (ResolvePermissions S).SubAllow ↔ p ∈ (ResolvePermissions S').SubAllow) := by
  simp only [mem_resolve_pub, mem_resolve_sub, h.mem_iff, and_self]

theorem ResolvePermissions_perm_witness :
    ["nats:publish", "nats:subscribe"].Perm ["nats:subscribe", "nats:publish"]
    ∧ (("_INBOX.>" ∈ (ResolvePermissions ["nats:publish", "nats:subscribe"]).PubAllow ↔
          "_INBOX.>" ∈ (ResolvePermissions ["nats:subscribe", "nats:publish"]).PubAllow)
      ∧ ("_INBOX.>" ∈ (ResolvePermissions ["nats:publish", "nats:subscribe"]).SubAllow ↔
          "_INBOX.>" ∈ (ResolvePermissions ["nats:subscribe", "nats:publish"]).SubAllow)) :=
  ⟨List.Perm.swap _ _ _,
   ResolvePermissions_perm _ _ (List.Perm.swap _ _ _) "_INBOX.>"⟩

/-- C9: for every list of scopes `S`, also one that repeats a scope or whose scopes have
overlapping mappings, no pattern occurs more than once in the publish-allow list of
`ResolvePermissions S` and none more than once in its subscribe-allow list; a pattern
may still occur once in each list, as `orders.>` does for
`["nats:publish", "nats:subscribe", "nats:publish"]`. -/
theorem ResolvePermissions_nodup :
    (∀ S : List String,
      (ResolvePermissions S).PubAllow.Nodup ∧ (ResolvePermissions S).SubAllow.Nodup)
    ∧ (ResolvePermissions ["nats:publish", "nats:subscribe", "nats:publish"]).PubAllow.count
        "orders.>" = 1
    ∧ (ResolvePermissions ["nats:publish", "nats:subscribe", "nats:publish"]).SubAllow.count
        "orders.>" = 1 := by
  refine ⟨fun S => ?_, by decide, by decide⟩
  have h := (foldl_resolveScope_spec S {} inv_init).1
  exact ⟨h.pub_nodup, h.sub_nodup⟩

/-- C10: for every list of scopes `S` (the nil and the empty list are both `[]`),
`HasPermissions` of `ResolvePermissions S` is false exactly when no element of `S` is a
key of `DefaultScopeMappings`, which is exactly when both lists are empty, and it is
true exactly when `S` contains a key. `["openid", "profile"]` and `[]` give false. -/
theorem HasPermissions_iff (S : List String) :
    ((ResolvePermissions S).HasPermissions = false ↔
      ∀ scope ∈ S, DefaultScopeMappings.lookup scope = none)
    ∧ ((ResolvePermissions S).HasPermissions = false ↔
      (ResolvePermissions S).PubAllow = [] ∧ (ResolvePermissions S).SubAllow = [])
    ∧ ((ResolvePermissions S).HasPermissions = true ↔
      ∃ scope ∈ S, ∃ mapping, DefaultScopeMappings.lookup scope = some mapping)
    ∧ (ResolvePermissions ["openid", "profile"]).HasPermissions = false
    ∧ (ResolvePermissions []).HasPermissions = false := by
  have hdef : (ResolvePermissions S).HasPermissions = false ↔
      (ResolvePermissions S).PubAllow = [] ∧ (ResolvePermissions S).SubAllow = [] := by
    simp [ResolvedPermissions.HasPermissions, List.length_pos]
  have hkey : ((ResolvePermissions S).PubAllow = [] ∧ (ResolvePermissions S).SubAllow = []) ↔
      ∀ scope ∈ S, DefaultScopeMappings.lookup scope = none := by
    constructor
    · rintro ⟨-, hsub⟩ scope hscope
      cases hl : DefaultScopeMappings.lookup scope with
      | none => rfl
      | some mapping =>
        exfalso
        obtain ⟨p, hp⟩ := List.exists_mem_of_ne_nil _ (lookup_sub_nonempty scope mapping hl)
        have : p ∈ (ResolvePermissions S).SubAllow :=
          (mem_resolve_sub S p).2 ⟨scope, hscope, (mem_scopeSub_iff scope p).2 ⟨mapping, hl, hp⟩⟩
        rw [hsub] at this
        exact List.not_mem_nil _ this
    · intro h
      constructor
      · apply List.eq_nil_iff_forall_not_mem.2
        intro p hp
        obtain ⟨scope, hscope, hmem⟩ := (mem_resolve_pub S p).1 hp
        obtain ⟨mapping, hl, -⟩ := (mem_scopePub_iff scope p).1 hmem
        rw [h scope hscope] at hl
        cases hl
      · apply List.eq_nil_iff_forall_not_mem.2
        intro p hp
        obtain ⟨scope, hscope, hmem⟩ := (mem_resolve_sub S p).1 hp
        obtain ⟨mapping, hl, -⟩ := (mem_scopeSub_iff scope p).1 hmem
        rw [h scope hscope] at hl
        cases hl
  refine ⟨hdef.trans hkey, hdef, ?_, by decide, by decide⟩
  rw [← Bool.not_eq_false, hdef.trans hkey]
  push_neg
  constructor
  · rintro ⟨scope, hscope, hne⟩
    exact ⟨scope, hscope, Option.ne_none_iff_exists'.1 hne⟩
  · rintro ⟨scope, hscope, mapping, hl⟩
    exact ⟨scope, hscope, by rw [hl]; exact Option.some_ne_none _⟩

/-! ## Multi-issuer validation -/

theorem validateLoop_first (rawToken : String) (pre post : List OIDCVerifier)
    (v : OIDCVerifier) (claims : OIDCClaims) (lastErr : Option String)
    (hpre : ∀ u ∈ pre, ∃ e, u.Verify rawToken = .error e)
    (hv : v.Verify rawToken = .ok claims) :
    validateLoop rawToken (pre ++ v :: post) lastErr = .ok (claims, v.issuerURL) := by
  induction pre generalizing lastErr with
  | nil => simp [validateLoop, hv]
  | cons u pre ih =>
    obtain ⟨e, he⟩ := hpre u (List.mem_cons_self _ _)
    simp only [List.cons_append, validateLoop, he]
    exact ih _ (fun w hw => hpre w (List.mem_cons_of_mem _ hw))

theorem validateLoop_all_reject (rawToken : String) (verifiers : List OIDCVerifier)
    (lastErr : Option String)
    (h : ∀ u ∈ verifiers, ∃ e, u.Verify rawToken = .error e) :
    ∃ e, validateLoop rawToken verifiers lastErr = .error e := by
  induction verifiers generalizing lastErr with
  | nil => exact ⟨_, rfl⟩
  | cons u vs ih =>
    obtain ⟨e, he⟩ := h u (List.mem_cons_self _ _)
    simp only [validateLoop, he]
    exact ih _ (fun w hw => h w (List.mem_cons_of_mem _ hw))

theorem exists_first_accepting (rawToken : String) (verifiers : List OIDCVerifier)
    (h : ∃ v ∈ verifiers, ∃ c, v.Verify rawToken = .ok c) :
    ∃ pre v post claims, verifiers = pre ++ v :: post
      ∧ (∀ u ∈ pre, ∃ e, u.Verify rawToken = .error e)
      ∧ v.Verify rawToken = .ok claims := by
  induction verifiers with
  | nil =>
    obtain ⟨v, hv, -⟩ := h
    exact absurd hv (List.not_mem_nil v)
  | cons u vs ih =>
    cases hu : u.Verify rawToken with
    | ok c => exact ⟨[], u, vs, c, rfl, fun w hw => absurd hw (List.not_mem_nil w), hu⟩
    | error e =>
      have h' : ∃ v ∈ vs, ∃ c, v.Verify rawToken = .ok c := by
        obtain ⟨v, hv, c, hc⟩ := h
        rcases List.mem_cons.1 hv with rfl | hv
        · rw [hu] at hc; cases hc
        · exact ⟨v, hv, c, hc⟩
      obtain ⟨pre, v, post, claims, hsplit, hpre, hacc⟩ := ih h'
      refine ⟨u :: pre, v, post, claims, by rw [hsplit]; rfl, ?_, hacc⟩
      intro w hw
      rcases List.mem_cons.1 hw with rfl | hw
      · exact ⟨e, hu⟩
      · exact hpre w hw

/-- C3: for every token and every ordered list of verifiers in which at least one verifier
accepts the token, the list splits at its lowest-index accepting verifier `v` (every
verifier before `v` rejects the token), `ValidateToken` succeeds with the claims `v`
extracts and the issuer URL of `v`, and it returns the same whatever verifiers
come after `v`. -/
theorem ValidateToken_first_success (rawToken : String) (verifiers : List OIDCVerifier)
    (h : ∃ v ∈ verifiers, ∃ c, v.Verify rawToken = .ok c) :
    ∃ pre v post claims, verifiers = pre ++ v :: post
      ∧ (∀ u ∈ pre, ∃ e, u.Verify rawToken = .error e)
      ∧ v.Verify rawToken = .ok claims
      ∧ ValidateToken rawToken verifiers = .ok (claims, v.issuerURL)
      ∧ ∀ post', ValidateToken rawToken (pre ++ v :: post') = .ok (claims, v.issuerURL) := by
  obtain ⟨pre, v, post, claims, hsplit, hpre, hacc⟩ := exists_first_accepting rawToken verifiers h
  refine ⟨pre, v, post, claims, hsplit, hpre, hacc, ?_, fun post' => ?_⟩
  · rw [hsplit]
    exact validateLoop_first rawToken pre post v claims none hpre hacc
  · exact validateLoop_first rawToken pre post' v claims none hpre hacc

theorem ValidateToken_first_success_witness :
    (∃ v ∈ [sampleRejecting, sampleAccepting "nats:admin"],
        ∃ c, v.Verify "tok" = .ok c)
    ∧ ∃ pre v post claims,
        [sampleRejecting, sampleAccepting "nats:admin"] = pre ++ v :: post
      ∧ (∀ u ∈ pre, ∃ e, u.Verify "tok" = .error e)
      ∧ v.Verify "tok" = .ok claims
      ∧ ValidateToken "tok" [sampleRejecting, sampleAccepting "nats:admin"]
          = .ok (claims, v.issuerURL)
      ∧ ∀ post', ValidateToken "tok" (pre ++ v :: post') = .ok (claims, v.issuerURL) :=
  ⟨⟨sampleAccepting "nats:admin", by simp, _, rfl⟩,
   ValidateToken_first_success "tok" [sampleRejecting, sampleAccepting "nats:admin"]
     ⟨sampleAccepting "nats:admin", by simp, _, rfl⟩⟩

/-- A token rejected by the first and accepted by the second of two verifiers is reported
with the issuer of the second. -/
theorem ValidateToken_second_issuer :
    ValidateToken "tok" [sampleRejecting, sampleAccepting "nats:admin"]
      = .ok ({ Subject := "svc-1", Scope := "nats:admin", Scopes := ["nats:admin"] },
             "https://issuer-b.example") := by
  rfl

/-! ## The authorizer -/

theorem StringList_Add_eq_append (u l : List String) (hnodup : (u ++ l).Nodup)
    (hne : "" ∉ l) : StringList.Add u l = u ++ l := by
  induction l generalizing u with
  | nil => simp [StringList.Add]
  | cons a l ih =>
    have ha : a ∉ u := by
      intro hau
      have := List.nodup_append.1 hnodup
      exact this.2.2 hau (List.mem_cons_self a l)
    have ha' : a ≠ "" := fun h => hne (h ▸ List.mem_cons_self a l)
    have hstep : StringList.Add u (a :: l) = StringList.Add (u ++ [a]) l := by
      simp [StringList.Add, ha, ha']
    rw [hstep, ih (u ++ [a]) (by simpa using hnodup) (fun h => hne (List.mem_cons_of_mem _ h))]
    simp

theorem resolve_no_empty_pattern (S : List String) :
    "" ∉ (ResolvePermissions S).PubAllow ∧ "" ∉ (ResolvePermissions S).SubAllow := by
  constructor
  · intro h
    obtain ⟨scope, -, hmem⟩ := (mem_resolve_pub S "").1 h
    obtain ⟨mapping, hl, hp⟩ := (mem_scopePub_iff scope "").1 hmem
    exact (mem_table_ne_empty scope mapping hl).1 hp
  · intro h
    obtain ⟨scope, -, hmem⟩ := (mem_resolve_sub S "").1 h
    obtain ⟨mapping, hl, hp⟩ := (mem_scopeSub_iff scope "").1 hmem
    exact (mem_table_ne_empty scope mapping hl).2 hp

theorem Add_resolved (S : List String) :
    StringList.Add [] (ResolvePermissions S).PubAllow = (ResolvePermissions S).PubAllow
    ∧ StringList.Add [] (ResolvePermissions S).SubAllow = (ResolvePermissions S).SubAllow := by
  have hinv := (foldl_resolveScope_spec S {} inv_init).1
  have hne := resolve_no_empty_pattern S
  constructor
  · have := StringList_Add_eq_append [] _ (by simpa using hinv.pub_nodup) hne.1
    simpa using this
  · have := StringList_Add_eq_append [] _ (by simpa using hinv.sub_nodup) hne.2
    simpa using this

theorem append_ne_empty (a b : String) (ha : a ≠ "") : a ++ b ≠ "" := by
  intro h
  apply ha
  have hd := congrArg String.data h
  rw [String.data_append] at hd
  exact String.ext (List.append_eq_nil.1 hd).1

/-! ### The ways through the authorizer function -/

theorem NewAuthorizer_no_token (verifiers : List OIDCVerifier) (signingKey : KeyPair)
    (issuerPubKey : String) (clock : Nat → Time) (req : AuthorizationRequestClaims)
    (htok : extractRawToken req = "") :
    NewAuthorizer verifiers signingKey issuerPubKey clock req =
      { jwt := "", err := some "no authentication token provided",
        audit := [PublishFailure (clock 0)
          { UserNKey := req.UserNkey, ClientIP := req.ClientInformation.Host,
            Reason := "no authentication token provided" }],
        signed := none } := by
  simp [NewAuthorizer, htok]

theorem NewAuthorizer_invalid (verifiers : List OIDCVerifier) (signingKey : KeyPair)
    (issuerPubKey : String) (clock : Nat → Time) (req : AuthorizationRequestClaims)
    (e : String) (htok : extractRawToken req ≠ "")
    (hval : ValidateToken (extractRawToken req) verifiers = .error e) :
    NewAuthorizer verifiers signingKey issuerPubKey clock req =
      { jwt := "", err := some ("authentication failed: " ++ e),
        audit := [PublishFailure (clock 0)
          { UserNKey := req.UserNkey, ClientIP := req.ClientInformation.Host,
            Reason := "token validation failed: " ++ e }],
        signed := none } := by
  simp [NewAuthorizer, htok, hval]

theorem NewAuthorizer_no_perms (verifiers : List OIDCVerifier) (signingKey : KeyPair)
    (issuerPubKey : String) (clock : Nat → Time) (req : AuthorizationRequestClaims)
    (claims : OIDCClaims) (issuer : String) (htok : extractRawToken req ≠ "")
    (hval : ValidateToken (extractRawToken req) verifiers = .ok (claims, issuer))
    (hperm : (ResolvePermissions claims.Scopes).HasPermissions = false) :
    NewAuthorizer verifiers signingKey issuerPubKey clock req =
      { jwt := "",
        err := some ("no authorized NATS scopes found for subject " ++ claims.Subject
          ++ " (scopes: " ++ fmtStrings claims.Scopes ++ ")"),
        audit := [PublishFailure (clock 0)
          { UserNKey := req.UserNkey, ClientIP := req.ClientInformation.Host,
            TokenIssuer := issuer, TokenSub := claims.Subject, Scopes := claims.Scopes,
            Reason := "no authorized NATS scopes in token" }],
        signed := none } := by
  simp [NewAuthorizer, htok, hval, hperm]

theorem NewAuthorizer_nil_claims (verifiers : List OIDCVerifier) (signingKey : KeyPair)
    (issuerPubKey : String) (clock : Nat → Time) (req : AuthorizationRequestClaims)
    (claims : OIDCClaims) (issuer : String) (htok : extractRawToken req ≠ "")
    (hval : ValidateToken (extractRawToken req) verifiers = .ok (claims, issuer))
    (hperm : (ResolvePermissions claims.Scopes).HasPermissions = true)
    (hbuild : buildUserClaims req claims (ResolvePermissions claims.Scopes) clock = none) :
    NewAuthorizer verifiers signingKey issuerPubKey clock req =
      { jwt := "", err := some nilDereference, audit := [], signed := none,
        panicked := true } := by
  simp [NewAuthorizer, htok, hval, hperm, hbuild]

theorem NewAuthorizer_sign_failure (verifiers : List OIDCVerifier) (signingKey : KeyPair)
    (issuerPubKey : String) (clock : Nat → Time) (req : AuthorizationRequestClaims)
    (claims : OIDCClaims) (issuer e : String) (uc : UserClaims)
    (htok : extractRawToken req ≠ "")
    (hval : ValidateToken (extractRawToken req) verifiers = .ok (claims, issuer))
    (hperm : (ResolvePermissions claims.Scopes).HasPermissions = true)
    (hbuild : buildUserClaims req claims (ResolvePermissions claims.Scopes) clock = some uc)
    (henc : uc.Encode signingKey (clock 2) = .error e) :
    NewAuthorizer verifiers signingKey issuerPubKey clock req =
      { jwt := "", err := some ("failed to sign user claims: " ++ e), audit := [],
        signed := some uc } := by
  simp [NewAuthorizer, htok, hval, hperm, hbuild, henc]

theorem NewAuthorizer_success (verifiers : List OIDCVerifier) (signingKey : KeyPair)
    (issuerPubKey : String) (clock : Nat → Time) (req : AuthorizationRequestClaims)
    (claims : OIDCClaims) (issuer encoded : String) (uc : UserClaims)
    (htok : extractRawToken req ≠ "")
    (hval : ValidateToken (extractRawToken req) verifiers = .ok (claims, issuer))
    (hperm : (ResolvePermissions claims.Scopes).HasPermissions = true)
    (hbuild : buildUserClaims req claims (ResolvePermissions claims.Scopes) clock = some uc)
    (henc : uc.Encode signingKey (clock 2) = .ok encoded) :
    NewAuthorizer verifiers signingKey issuerPubKey clock req =
      { jwt := encoded, err := none,
        audit := [PublishSuccess (clock 3)
          { UserNKey := req.UserNkey, ClientIP := req.ClientInformation.Host,
            TokenIssuer := issuer, TokenSub := claims.Subject, Scopes := claims.Scopes,
            Permissions := some { PubAllow := (ResolvePermissions claims.Scopes).PubAllow,
                                  SubAllow := (ResolvePermissions claims.Scopes).SubAllow } }],
        signed := some uc } := by
  simp [NewAuthorizer, htok, hval, hperm, hbuild, henc]

theorem buildUserClaims_congr (req req' : AuthorizationRequestClaims) (claims : OIDCClaims)
    (perms : ResolvedPermissions) (clock : Nat → Time) (h : req'.UserNkey = req.UserNkey) :
    buildUserClaims req' claims perms clock = buildUserClaims req claims perms clock := by
  simp [buildUserClaims, h]

theorem buildUserClaims_eq_none (req : AuthorizationRequestClaims) (claims : OIDCClaims)
    (perms : ResolvedPermissions) (clock : Nat → Time) :
    buildUserClaims req claims perms clock = none ↔ req.UserNkey = "" := by
  unfold buildUserClaims NewUserClaims
  by_cases h : req.UserNkey = "" <;> simp [h]

theorem buildUserClaims_some (req : AuthorizationRequestClaims) (claims : OIDCClaims)
    (perms : ResolvedPermissions) (clock : Nat → Time) (uc : UserClaims)
    (h : buildUserClaims req claims perms clock = some uc) :
    uc = { Subject := req.UserNkey, Name := claims.Subject, Audience := "APP",
           Expires := ((clock 0).Add (1 * Hour)).Unix, IssuedAt := (clock 1).Unix,
           Pub := { Allow := StringList.Add [] perms.PubAllow },
           Sub := { Allow := StringList.Add [] perms.SubAllow },
           Resp := some { MaxMsgs := 1, Expires := 5 * Minute } } := by
  unfold buildUserClaims NewUserClaims at h
  by_cases hn : req.UserNkey = ""
  · simp [hn] at h
  · simp only [hn, if_false, Option.some.injEq] at h
    exact h.symm

/-- Every way through the authorizer function: the outcome of a call, by the credential,
the validation, the resolved permissions, the claims built and their encoding. -/
theorem NewAuthorizer_cases (verifiers : List OIDCVerifier) (signingKey : KeyPair)
    (issuerPubKey : String) (clock : Nat → Time) (req : AuthorizationRequestClaims) :
    (∃ m e, NewAuthorizer verifiers signingKey issuerPubKey clock req
        = { jwt := "", err := some e, audit := [m], signed := none } ∧ e ≠ "")
    ∨ (req.UserNkey = "" ∧ NewAuthorizer verifiers signingKey issuerPubKey clock req
        = { jwt := "", err := some nilDereference, audit := [], signed := none,
            panicked := true })
    ∨ (∃ claims issuer uc e,
        ValidateToken (extractRawToken req) verifiers = .ok (claims, issuer)
        ∧ buildUserClaims req claims (ResolvePermissions claims.Scopes) clock = some uc
        ∧ uc.Encode signingKey (clock 2) = .error e
        ∧ NewAuthorizer verifiers signingKey issuerPubKey clock req
          = { jwt := "", err := some ("failed to sign user claims: " ++ e), audit := [],
              signed := some uc })
    ∨ (∃ claims issuer uc encoded m,
        ValidateToken (extractRawToken req) verifiers = .ok (claims, issuer)
        ∧ buildUserClaims req claims (ResolvePermissions claims.Scopes) clock = some uc
        ∧ uc.Encode signingKey (clock 2) = .ok encoded
        ∧ NewAuthorizer verifiers signingKey issuerPubKey clock req
          = { jwt := encoded, err := none, audit := [m], signed := some uc }) := by
  by_cases htok : extractRawToken req = ""
  · exact Or.inl ⟨_, _, NewAuthorizer_no_token _ _ _ _ _ htok, by decide⟩
  · cases hval : ValidateToken (extractRawToken req) verifiers with
    | error e =>
      exact Or.inl ⟨_, _, NewAuthorizer_invalid _ _ _ _ _ e htok hval,
        append_ne_empty _ _ (by decide)⟩
    | ok r =>
      obtain ⟨claims, issuer⟩ := r
      cases hperm : (ResolvePermissions claims.Scopes).HasPermissions with
      | false =>
        exact Or.inl ⟨_, _, NewAuthorizer_no_perms _ _ _ _ _ claims issuer htok hval hperm,
          append_ne_empty _ _ (append_ne_empty _ _ (append_ne_empty _ _
            (append_ne_empty _ _ (by decide))))⟩
      | true =>
        cases hbuild : buildUserClaims req claims (ResolvePermissions claims.Scopes) clock with
        | none =>
          exact Or.inr (Or.inl ⟨(buildUserClaims_eq_none _ _ _ _).1 hbuild,
            NewAuthorizer_nil_claims _ _ _ _ _ claims issuer htok hval hperm hbuild⟩)
        | some uc =>
          cases henc : uc.Encode signingKey (clock 2) with
          | error e =>
            exact Or.inr (Or.inr (Or.inl ⟨claims, issuer, uc, e, rfl, hbuild, henc,
              NewAuthorizer_sign_failure _ _ _ _ _ claims issuer e uc htok hval hperm
                hbuild henc⟩))
          | ok encoded =>
            exact Or.inr (Or.inr (Or.inr ⟨claims, issuer, uc, encoded, _, rfl, hbuild, henc,
              NewAuthorizer_success _ _ _ _ _ claims issuer encoded uc htok hval hperm
                hbuild henc⟩))

theorem NewAuthorizer_ok (verifiers : List OIDCVerifier) (signingKey : KeyPair)
    (issuerPubKey : String) (clock : Nat → Time) (req : AuthorizationRequestClaims)
    (hok : (NewAuthorizer verifiers signingKey issuerPubKey clock req).err = none) :
    ∃ claims issuer uc,
      ValidateToken (extractRawToken req) verifiers = .ok (claims, issuer)
      ∧ buildUserClaims req claims (ResolvePermissions claims.Scopes) clock = some uc
      ∧ (NewAuthorizer verifiers signingKey issuerPubKey clock req).signed = some uc
      ∧ uc.Encode signingKey (clock 2)
          = .ok (NewAuthorizer verifiers signingKey issuerPubKey clock req).jwt
      ∧ (NewAuthorizer verifiers signingKey issuerPubKey clock req).panicked = false := by
  rcases NewAuthorizer_cases verifiers signingKey issuerPubKey clock req with
    ⟨m, e, h, -⟩ | ⟨-, h⟩ | ⟨claims, issuer, uc, e, -, -, -, h⟩
      | ⟨claims, issuer, uc, encoded, m, hval, hbuild, henc, h⟩
  · rw [h] at hok; cases hok
  · rw [h] at hok; cases hok
  · rw [h] at hok; cases hok
  · rw [h]
    exact ⟨claims, issuer, uc, hval, hbuild, rfl, henc, rfl⟩

/-- C1: for every authorization request on which the authorizer returns a certificate (a
nil error), the token was validated to some claims and issuer, the certificate is the
encoding of the user claims the authorizer built, and these claims have subject equal
to the identity handle `UserNkey` of the request, name equal to the verified subject,
and publish-allow and subscribe-allow lists equal to `PubAllow` and `SubAllow` of
`ResolvePermissions` of the verified scopes; the signed claims are the same for every
other request with the same identity handle and the same credential. -/
theorem NewAuthorizer_signed_claims (verifiers : List OIDCVerifier) (signingKey : KeyPair)
    (issuerPubKey : String) (clock : Nat → Time) (req : AuthorizationRequestClaims)
    (hok : (NewAuthorizer verifiers signingKey issuerPubKey clock req).err = none) :
    ∃ claims issuer uc,
      ValidateToken (extractRawToken req) verifiers = .ok (claims, issuer)
      ∧ (NewAuthorizer verifiers signingKey issuerPubKey clock req).signed = some uc
      ∧ uc.Encode signingKey (clock 2)
          = .ok (NewAuthorizer verifiers signingKey issuerPubKey clock req).jwt
      ∧ uc.Subject = req.UserNkey
      ∧ uc.Name = claims.Subject
      ∧ uc.Pub.Allow = (ResolvePermissions claims.Scopes).PubAllow
      ∧ uc.Sub.Allow = (ResolvePermissions claims.Scopes).SubAllow
      ∧ ∀ req' : AuthorizationRequestClaims, req'.UserNkey = req.UserNkey →
          extractRawToken req' = extractRawToken req →
          (NewAuthorizer verifiers signingKey issuerPubKey clock req').signed = some uc := by
  rcases NewAuthorizer_cases verifiers signingKey issuerPubKey clock req with
    ⟨m, e, h, -⟩ | ⟨-, h⟩ | ⟨claims, issuer, uc, e, -, -, -, h⟩
      | ⟨claims, issuer, uc, encoded, m, hval, hbuild, henc, h⟩
  · rw [h] at hok; cases hok
  · rw [h] at hok; cases hok
  · rw [h] at hok; cases hok
  · have huc := buildUserClaims_some req claims _ clock uc hbuild
    obtain ⟨hpub, hsub⟩ := Add_resolved claims.Scopes
    rw [h]
    refine ⟨claims, issuer, uc, hval, rfl, henc, ?_, ?_, ?_, ?_, ?_⟩
    · rw [huc]
    · rw [huc]
    · rw [huc]; exact hpub
    · rw [huc]; exact hsub
    · intro req' hnkey htok'
      have hbuild' : buildUserClaims req' claims (ResolvePermissions claims.Scopes) clock
          = some uc := by
        rw [buildUserClaims_congr req req' claims _ clock hnkey]
        exact hbuild
      have hval' : ValidateToken (extractRawToken req') verifiers = .ok (claims, issuer) := by
        rw [htok']; exact hval
      rcases NewAuthorizer_cases verifiers signingKey issuerPubKey clock req' with
        ⟨m', e', h', -⟩ | ⟨hnil, -⟩ | ⟨claims', issuer', uc', e', hval'', hbuild'', henc', -⟩
          | ⟨claims', issuer', uc', encoded', m', hval'', hbuild'', -, h'⟩
      · exfalso
        have hs : (NewAuthorizer verifiers signingKey issuerPubKey clock req).signed
            = some uc := by rw [h]
        have htokne : extractRawToken req ≠ "" := by
          intro htok
          rw [NewAuthorizer_no_token _ _ _ _ _ htok] at hs
          cases hs
        have hperm : (ResolvePermissions claims.Scopes).HasPermissions = true := by
          cases hp : (ResolvePermissions claims.Scopes).HasPermissions with
          | true => rfl
          | false =>
            rw [NewAuthorizer_no_perms _ _ _ _ _ claims issuer htokne hval hp] at hs
            cases hs
        have hne' : extractRawToken req' ≠ "" := by rw [htok']; exact htokne
        rw [NewAuthorizer_success _ _ _ _ req' claims issuer encoded uc hne' hval' hperm
          hbuild' henc] at h'
        cases h'
      · exfalso
        have := (buildUserClaims_eq_none req' claims (ResolvePermissions claims.Scopes)
          clock).2 hnil
        rw [hbuild'] at this
        cases this
      · exfalso
        rw [hval'] at hval''
        cases hval''
        rw [hbuild'] at hbuild''
        cases hbuild''
        rw [henc] at henc'
        cases henc'
      · rw [hval'] at hval''
        cases hval''
        rw [hbuild'] at hbuild''
        cases hbuild''
        rw [h']

theorem NewAuthorizer_signed_claims_witness :
    (NewAuthorizer [sampleRejecting, sampleAccepting "openid nats:publish"] sampleKey "AKEY"
        sampleClock sampleRequest).err = none
    ∧ ∃ claims issuer uc,
      ValidateToken (extractRawToken sampleRequest)
          [sampleRejecting, sampleAccepting "openid nats:publish"] = .ok (claims, issuer)
      ∧ (NewAuthorizer [sampleRejecting, sampleAccepting "openid nats:publish"] sampleKey "AKEY"
          sampleClock sampleRequest).signed = some uc
      ∧ uc.Encode sampleKey (sampleClock 2)
          = .ok (NewAuthorizer [sampleRejecting, sampleAccepting "openid nats:publish"]
              sampleKey "AKEY" sampleClock sampleRequest).jwt
      ∧ uc.Subject = sampleRequest.UserNkey
      ∧ uc.Name = claims.Subject
      ∧ uc.Pub.Allow = (ResolvePermissions claims.Scopes).PubAllow
      ∧ uc.Sub.Allow = (ResolvePermissions claims.Scopes).SubAllow
      ∧ ∀ req' : AuthorizationRequestClaims, req'.UserNkey = sampleRequest.UserNkey →
          extractRawToken req' = extractRawToken sampleRequest →
          (NewAuthorizer [sampleRejecting, sampleAccepting "openid nats:publish"] sampleKey
            "AKEY" sampleClock req').signed = some uc :=
  ⟨rfl, NewAuthorizer_signed_claims _ _ _ _ _ rfl⟩

/-- The certificate and the signed claims of the sample request. -/
theorem NewAuthorizer_sample :
    (NewAuthorizer [sampleRejecting, sampleAccepting "openid nats:publish"] sampleKey "AKEY"
        sampleClock sampleRequest).jwt = "hdr.user:UABC.sig"
    ∧ (NewAuthorizer [sampleRejecting, sampleAccepting "openid nats:publish"] sampleKey "AKEY"
        sampleClock sampleRequest).signed
      = some { Subject := "UABC", Name := "svc-1", Audience := "APP",
               Expires := 1700003600, IssuedAt := 1700000000,
               Pub := { Allow := ["orders.>", "events.>"] },
               Sub := { Allow := ["_INBOX.>"] },
               Resp := some { MaxMsgs := 1, Expires := 300000000000 } } := by
  constructor
  · rfl
  · decide

/-- C4: for every authorization request whose connect options have an empty token and an
empty password, whatever the verifiers, the signing key and the clock are, the authorizer
returns the error `no authentication token provided` and the empty string for the
certificate, without calling `Encode` on any claims. -/
theorem NewAuthorizer_missing_credential (verifiers : List OIDCVerifier) (signingKey : KeyPair)
    (issuerPubKey : String) (clock : Nat → Time) (req : AuthorizationRequestClaims)
    (htoken : req.ConnectOptions.Token = "") (hpassword : req.ConnectOptions.Password = "") :
    (NewAuthorizer verifiers signingKey issuerPubKey clock req).err
        = some "no authentication token provided"
    ∧ (NewAuthorizer verifiers signingKey issuerPubKey clock req).jwt = ""
    ∧ (NewAuthorizer verifiers signingKey issuerPubKey clock req).signed = none := by
  have htok : extractRawToken req = "" := by simp [extractRawToken, htoken, hpassword]
  rw [NewAuthorizer_no_token _ _ _ _ _ htok]
  exact ⟨rfl, rfl, rfl⟩

theorem NewAuthorizer_missing_credential_witness :
    sampleBareRequest.ConnectOptions.Token = ""
    ∧ sampleBareRequest.ConnectOptions.Password = ""
    ∧ (NewAuthorizer [sampleAccepting "nats:admin"] sampleKey "AKEY" sampleClock
        sampleBareRequest).err = some "no authentication token provided"
    ∧ (NewAuthorizer [sampleAccepting "nats:admin"] sampleKey "AKEY" sampleClock
        sampleBareRequest).jwt = ""
    ∧ (NewAuthorizer [sampleAccepting "nats:admin"] sampleKey "AKEY" sampleClock
        sampleBareRequest).signed = none :=
  ⟨rfl, rfl,
   NewAuthorizer_missing_credential [sampleAccepting "nats:admin"] sampleKey "AKEY" sampleClock
     sampleBareRequest rfl rfl⟩

/-- C5: for every request that carries a credential which the verifier `v` accepts, every
verifier configured before `v` rejecting it, and whose verified scopes contain no key of
`DefaultScopeMappings`, the resolved permissions have `HasPermissions` false, the
authorizer returns an error and no certificate and signs nothing, and it publishes one
audit message, on the failure subject with decision `failure`, that carries the issuer
URL of `v` and the verified subject and has no granted-permissions snapshot. -/
theorem NewAuthorizer_unrecognized_scopes (pre post : List OIDCVerifier) (v : OIDCVerifier)
    (signingKey : KeyPair) (issuerPubKey : String) (clock : Nat → Time)
    (req : AuthorizationRequestClaims) (claims : OIDCClaims)
    (htok : extractRawToken req ≠ "")
    (hpre : ∀ u ∈ pre, ∃ e, u.Verify (extractRawToken req) = .error e)
    (hv : v.Verify (extractRawToken req) = .ok claims)
    (hscopes : ∀ scope ∈ claims.Scopes, DefaultScopeMappings.lookup scope = none) :
    (ResolvePermissions claims.Scopes).HasPermissions = false
    ∧ (NewAuthorizer (pre ++ v :: post) signingKey issuerPubKey clock req).jwt = ""
    ∧ (∃ e, (NewAuthorizer (pre ++ v :: post) signingKey issuerPubKey clock req).err = some e)
    ∧ (NewAuthorizer (pre ++ v :: post) signingKey issuerPubKey clock req).signed = none
    ∧ ∃ m, (NewAuthorizer (pre ++ v :: post) signingKey issuerPubKey clock req).audit = [m]
        ∧ m.subject = "auth.audit.failure"
        ∧ m.event.Decision = "failure"
        ∧ m.event.TokenIssuer = v.issuerURL
        ∧ m.event.TokenSub = claims.Subject
        ∧ m.event.Permissions = none := by
  have hval : ValidateToken (extractRawToken req) (pre ++ v :: post)
      = .ok (claims, v.issuerURL) :=
    validateLoop_first _ pre post v claims none hpre hv
  have hperm : (ResolvePermissions claims.Scopes).HasPermissions = false := by
    have hpub : (ResolvePermissions claims.Scopes).PubAllow = [] := by
      apply List.eq_nil_iff_forall_not_mem.2
      intro p hp
      obtain ⟨scope, hscope, hmem⟩ := (mem_resolve_pub _ p).1 hp
      obtain ⟨mapping, hl, -⟩ := (mem_scopePub_iff scope p).1 hmem
      rw [hscopes scope hscope] at hl
      cases hl
    have hsub : (ResolvePermissions claims.Scopes).SubAllow = [] := by
      apply List.eq_nil_iff_forall_not_mem.2
      intro p hp
      obtain ⟨scope, hscope, hmem⟩ := (mem_resolve_sub _ p).1 hp
      obtain ⟨mapping, hl, -⟩ := (mem_scopeSub_iff scope p).1 hmem
      rw [hscopes scope hscope] at hl
      cases hl
    simp [ResolvedPermissions.HasPermissions, hpub, hsub]
  rw [NewAuthorizer_no_perms _ _ _ _ _ claims v.issuerURL htok hval hperm]
  exact ⟨hperm, rfl, ⟨_, rfl⟩, rfl, _, rfl, rfl, rfl, rfl, rfl, rfl⟩

theorem NewAuthorizer_unrecognized_scopes_witness :
    extractRawToken sampleRequest ≠ ""
    ∧ (∀ u ∈ [sampleRejecting], ∃ e, u.Verify (extractRawToken sampleRequest) = .error e)
    ∧ (sampleAccepting "openid profile").Verify (extractRawToken sampleRequest)
        = .ok { Subject := "svc-1", Scope := "openid profile", Scopes := ["openid", "profile"] }
    ∧ (∀ scope ∈ ["openid", "profile"], DefaultScopeMappings.lookup scope = none)
    ∧ (ResolvePermissions ["openid", "profile"]).HasPermissions = false
    ∧ (NewAuthorizer ([sampleRejecting] ++ sampleAccepting "openid profile" :: [])
        sampleKey "AKEY" sampleClock sampleRequest).jwt = ""
    ∧ (∃ e, (NewAuthorizer ([sampleRejecting] ++ sampleAccepting "openid profile" :: [])
        sampleKey "AKEY" sampleClock sampleRequest).err = some e)
    ∧ (NewAuthorizer ([sampleRejecting] ++ sampleAccepting "openid profile" :: [])
        sampleKey "AKEY" sampleClock sampleRequest).signed = none
    ∧ ∃ m, (NewAuthorizer ([sampleRejecting] ++ sampleAccepting "openid profile" :: [])
          sampleKey "AKEY" sampleClock sampleRequest).audit = [m]
        ∧ m.subject = "auth.audit.failure"
        ∧ m.event.Decision = "failure"
        ∧ m.event.TokenIssuer = (sampleAccepting "openid profile").issuerURL
        ∧ m.event.TokenSub = "svc-1"
        ∧ m.event.Permissions = none :=
  ⟨by decide,
   fun u hu => by rw [List.mem_singleton.1 hu]; exact ⟨_, rfl⟩,
   rfl,
   by decide,
   NewAuthorizer_unrecognized_scopes [sampleRejecting] [] (sampleAccepting "openid profile")
     sampleKey "AKEY" sampleClock sampleRequest
     { Subject := "svc-1", Scope := "openid profile", Scopes := ["openid", "profile"] }
     (by decide) (fun u hu => by rw [List.mem_singleton.1 hu]; exact ⟨_, rfl⟩) rfl
     (by decide)⟩

/-- C6: for every request with a non-empty credential that every configured verifier
rejects, the authorizer returns an error and no certificate and signs nothing, and it
publishes one audit message, on the failure subject with decision `failure`, that
carries the identity handle and the client origin of the request and has issuer and
subject empty. -/
theorem NewAuthorizer_all_reject (verifiers : List OIDCVerifier) (signingKey : KeyPair)
    (issuerPubKey : String) (clock : Nat → Time) (req : AuthorizationRequestClaims)
    (htok : extractRawToken req ≠ "")
    (hrej : ∀ u ∈ verifiers, ∃ e, u.Verify (extractRawToken req) = .error e) :
    (NewAuthorizer verifiers signingKey issuerPubKey clock req).jwt = ""
    ∧ (∃ e, (NewAuthorizer verifiers signingKey issuerPubKey clock req).err = some e)
    ∧ (NewAuthorizer verifiers signingKey issuerPubKey clock req).signed = none
    ∧ ∃ m, (NewAuthorizer verifiers signingKey issuerPubKey clock req).audit = [m]
        ∧ m.subject = "auth.audit.failure"
        ∧ m.event.Decision = "failure"
        ∧ m.event.UserNKey = req.UserNkey
        ∧ m.event.ClientIP = req.ClientInformation.Host
        ∧ m.event.TokenIssuer = ""
        ∧ m.event.TokenSub = "" := by
  obtain ⟨e, he⟩ := validateLoop_all_reject (extractRawToken req) verifiers none hrej
  rw [NewAuthorizer_invalid _ _ _ _ _ e htok he]
  exact ⟨rfl, ⟨_, rfl⟩, rfl, _, rfl, rfl, rfl, rfl, rfl, rfl, rfl⟩

theorem NewAuthorizer_all_reject_witness :
    extractRawToken sampleRequest ≠ ""
    ∧ (∀ u ∈ [sampleRejecting, sampleRejecting],
        ∃ e, u.Verify (extractRawToken sampleRequest) = .error e)
    ∧ (NewAuthorizer [sampleRejecting, sampleRejecting] sampleKey "AKEY" sampleClock
        sampleRequest).jwt = ""
    ∧ (∃ e, (NewAuthorizer [sampleRejecting, sampleRejecting] sampleKey "AKEY" sampleClock
        sampleRequest).err = some e)
    ∧ (NewAuthorizer [sampleRejecting, sampleRejecting] sampleKey "AKEY" sampleClock
        sampleRequest).signed = none
    ∧ ∃ m, (NewAuthorizer [sampleRejecting, sampleRejecting] sampleKey "AKEY" sampleClock
          sampleRequest).audit = [m]
        ∧ m.subject = "auth.audit.failure"
        ∧ m.event.Decision = "failure"
        ∧ m.event.UserNKey = sampleRequest.UserNkey
        ∧ m.event.ClientIP = sampleRequest.ClientInformation.Host
        ∧ m.event.TokenIssuer = ""
        ∧ m.event.TokenSub = "" :=
  ⟨by decide,
   fun u hu => by
     rcases List.mem_cons.1 hu with rfl | hu
     · exact ⟨_, rfl⟩
     · rw [List.mem_singleton.1 hu]; exact ⟨_, rfl⟩,
   NewAuthorizer_all_reject [sampleRejecting, sampleRejecting] sampleKey "AKEY" sampleClock
     sampleRequest (by decide)
     (fun u hu => by
       rcases List.mem_cons.1 hu with rfl | hu
       · exact ⟨_, rfl⟩
       · rw [List.mem_singleton.1 hu]; exact ⟨_, rfl⟩)⟩

/-- The number of audit messages of one call: one on every way through the authorizer
function, except that there is none when `Encode` fails and none when the identity
handle of the request is empty and the call panics. -/
theorem NewAuthorizer_audit_count (verifiers : List OIDCVerifier) (signingKey : KeyPair)
    (issuerPubKey : String) (clock : Nat → Time) (req : AuthorizationRequestClaims) :
    (NewAuthorizer verifiers signingKey issuerPubKey clock req).audit.length = 1
    ∨ ((NewAuthorizer verifiers signingKey issuerPubKey clock req).audit = []
        ∧ ∃ uc e, (NewAuthorizer verifiers signingKey issuerPubKey clock req).signed = some uc
            ∧ uc.Encode signingKey (clock 2) = .error e)
    ∨ ((NewAuthorizer verifiers signingKey issuerPubKey clock req).audit = []
        ∧ (NewAuthorizer verifiers signingKey issuerPubKey clock req).panicked = true
        ∧ req.UserNkey = "") := by
  rcases NewAuthorizer_cases verifiers signingKey issuerPubKey clock req with
    ⟨m, e, h, -⟩ | ⟨hnil, h⟩ | ⟨claims, issuer, uc, e, -, -, henc, h⟩
      | ⟨claims, issuer, uc, encoded, m, -, -, -, h⟩
  · rw [h]; exact Or.inl rfl
  · rw [h]; exact Or.inr (Or.inr ⟨rfl, rfl, hnil⟩)
  · rw [h]; exact Or.inr (Or.inl ⟨rfl, uc, e, rfl, henc⟩)
  · rw [h]; exact Or.inl rfl

/-- C7, at a request whose token is valid and carries a recognized scope, with a signing
key whose `Encode` fails: the authorizer returns the signing error and publishes no
audit message, neither with `PublishSuccess` nor with `PublishFailure`. -/
theorem NewAuthorizer_sign_failure_unaudited :
    (NewAuthorizer [sampleAccepting "nats:admin"] sampleFailingKey "AKEY" sampleClock
        sampleRequest).audit = []
    ∧ (NewAuthorizer [sampleAccepting "nats:admin"] sampleFailingKey "AKEY" sampleClock
        sampleRequest).err
      = some "failed to sign user claims: unable to validate expected prefixes"
    ∧ (NewAuthorizer [sampleAccepting "nats:admin"] sampleFailingKey "AKEY" sampleClock
        sampleRequest).jwt = "" := by
  refine ⟨rfl, ?_, rfl⟩
  decide

/-! ## Scope extraction in `Verify` -/

theorem splitChars_ne_nil (sep : Char) (cs : List Char) : splitChars sep cs ≠ [] := by
  cases cs with
  | nil => simp [splitChars]
  | cons c cs =>
    unfold splitChars
    split
    · simp
    · split <;> simp

theorem splitChars_cons_sep (sep : Char) (cs : List Char) :
    splitChars sep (sep :: cs) = [] :: splitChars sep cs := by
  simp [splitChars]

theorem splitChars_cons_other (sep c : Char) (cs : List Char) (hc : c ≠ sep) :
    ∃ f fs, splitChars sep cs = f :: fs ∧ splitChars sep (c :: cs) = (c :: f) :: fs := by
  cases h : splitChars sep cs with
  | nil => exact absurd h (splitChars_ne_nil sep cs)
  | cons f fs => exact ⟨f, fs, rfl, by simp [splitChars, hc, h]⟩

theorem intercalate_splitChars (sep : Char) (cs : List Char) :
    [sep].intercalate (splitChars sep cs) = cs := by
  induction cs with
  | nil => simp [splitChars, List.intercalate]
  | cons c cs ih =>
    by_cases hc : c = sep
    · subst hc
      rw [splitChars_cons_sep]
      obtain ⟨f, fs, hf⟩ := List.exists_cons_of_ne_nil (splitChars_ne_nil c cs)
      rw [hf] at ih ⊢
      simpa [List.intercalate, List.intersperse] using ih
    · obtain ⟨f, fs, hf, hcons⟩ := splitChars_cons_other sep c cs hc
      rw [hcons]
      rw [hf] at ih
      cases fs with
      | nil => simpa [List.intercalate, List.intersperse] using ih
      | cons g gs => simpa [List.intercalate, List.intersperse] using ih

theorem sep_not_mem_of_mem_splitChars (sep : Char) (cs f : List Char)
    (hf : f ∈ splitChars sep cs) : sep ∉ f := by
  induction cs generalizing f with
  | nil =>
    simp [splitChars] at hf
    subst hf
    simp
  | cons c cs ih =>
    by_cases hc : c = sep
    · subst hc
      rw [splitChars_cons_sep] at hf
      rcases List.mem_cons.1 hf with rfl | hf
      · simp
      · exact ih f hf
    · obtain ⟨g, gs, hg, hcons⟩ := splitChars_cons_other sep c cs hc
      rw [hcons] at hf
      rcases List.mem_cons.1 hf with rfl | hf
      · intro hmem
        rcases List.mem_cons.1 hmem with h | h
        · exact hc h.symm
        · exact ih g (by rw [hg]; exact List.mem_cons_self _ _) h
      · exact ih f (by rw [hg]; exact List.mem_cons_of_mem _ hf)

theorem nil_mem_tail_splitChars (sep : Char) (cs : List Char) :
    [] ∈ (splitChars sep cs).tail ↔ cs.getLast? = some sep ∨ [sep, sep] <:+: cs := by
  induction cs with
  | nil => simp [splitChars]
  | cons c cs ih =>
    by_cases hc : c = sep
    · subst hc
      rw [splitChars_cons_sep, List.tail_cons]
      obtain ⟨f, fs, hf⟩ := List.exists_cons_of_ne_nil (splitChars_ne_nil c cs)
      rw [hf, List.tail_cons] at ih
      rw [hf, List.mem_cons, ih]
      cases cs with
      | nil =>
        simp only [splitChars, List.cons.injEq] at hf
        obtain ⟨rfl, rfl⟩ := hf
        simp
      | cons d ds =>
        by_cases hd : d = c
        · subst hd
          rw [splitChars_cons_sep] at hf
          simp [(List.cons.inj hf).1.symm, List.infix_cons_iff]
        · obtain ⟨g, gs, -, hcons⟩ := splitChars_cons_other c d ds hd
          rw [hcons] at hf
          have hne : f ≠ [] := by
            rw [← (List.cons.inj hf).1]; simp
          have hne' : ¬ [] = f := fun h => hne h.symm
          simp [hne', List.infix_cons_iff, List.getLast?_cons_cons, Ne.symm hd]
    · obtain ⟨f, fs, hf, hcons⟩ := splitChars_cons_other sep c cs hc
      rw [hcons, List.tail_cons]
      rw [hf, List.tail_cons] at ih
      rw [ih]
      cases cs with
      | nil => simp [hc, List.infix_cons_iff]
      | cons d ds => simp [List.infix_cons_iff, List.getLast?_cons_cons, Ne.symm hc]

theorem nil_mem_splitChars (sep : Char) (cs : List Char) :
    [] ∈ splitChars sep cs ↔
      cs = [] ∨ cs.head? = some sep ∨ cs.getLast? = some sep ∨ [sep, sep] <:+: cs := by
  cases cs with
  | nil => simp [splitChars]
  | cons c cs =>
    by_cases hc : c = sep
    · subst hc
      simp [splitChars_cons_sep]
    · have htail := nil_mem_tail_splitChars sep (c :: cs)
      obtain ⟨f, fs, -, hcons⟩ := splitChars_cons_other sep c cs hc
      rw [hcons, List.tail_cons] at htail
      rw [hcons, List.mem_cons, htail]
      simp [hc]

theorem nil_not_mem_splitChars (cs : List Char) (h : SpaceDelimited cs) :
    [] ∉ splitChars ' ' cs := by
  obtain ⟨h1, h2, h3, h4⟩ := h
  rw [nil_mem_splitChars]
  rintro (h | h | h | h)
  · exact h1 h
  · exact h2 h
  · exact h3 h
  · exact h4 h

theorem empty_mem_stringsSplitSpace (s : String) :
    "" ∈ stringsSplitSpace s ↔ [] ∈ splitChars ' ' s.data := by
  unfold stringsSplitSpace
  rw [List.mem_map]
  constructor
  · rintro ⟨f, hf, hmk⟩
    have : f = [] := by
      have := congrArg String.data hmk
      simpa using this
    exact this ▸ hf
  · intro h
    exact ⟨[], h, rfl⟩

theorem Verify_ok (v : OIDCVerifier) (rawToken : String) (claims : OIDCClaims)
    (h : v.Verify rawToken = .ok claims) :
    ∃ idToken, v.verifier rawToken = .ok idToken
      ∧ idToken.claimsErr = none
      ∧ claims.Scope = idToken.scope
      ∧ claims.Scopes = if idToken.scope = "" then [] else stringsSplitSpace idToken.scope := by
  unfold OIDCVerifier.Verify at h
  cases hv : v.verifier rawToken with
  | error e => simp [hv] at h
  | ok idToken =>
    refine ⟨idToken, rfl, ?_⟩
    cases herr : idToken.claimsErr with
    | some e => simp [hv, IDToken.Claims, herr] at h
    | none =>
      simp only [hv, IDToken.Claims, herr] at h
      have h' := Except.ok.inj h
      by_cases hs : idToken.scope = "" <;> by_cases hsub : idToken.sub = ""
        <;> by_cases hcid : idToken.client_id = ""
        <;> simp [hs, hsub, hcid] at h' <;> subst h' <;> simp [hs]

/-- C11, as amended: for every raw scope string carried by a verified token, the empty
string yields the empty scope list, and a string that is a space-delimited list (not
empty, no leading, trailing or consecutive space) yields the list of its pieces between
the space characters: the list does not contain the empty string, no scope in it
contains a space, and joining the scopes with single spaces gives back the raw string.
Only the space character separates scopes. -/
theorem Verify_scopes (v : OIDCVerifier) (rawToken : String) (claims : OIDCClaims)
    (h : v.Verify rawToken = .ok claims) :
    (claims.Scope = "" → claims.Scopes = [])
    ∧ (SpaceDelimited claims.Scope.data →
        "" ∉ claims.Scopes
        ∧ (∀ s ∈ claims.Scopes, ' ' ∉ s.data)
        ∧ [' '].intercalate (claims.Scopes.map String.data) = claims.Scope.data) := by
  obtain ⟨idToken, -, -, hscope, hscopes⟩ := Verify_ok v rawToken claims h
  rw [← hscope] at hscopes
  constructor
  · intro hempty
    rw [hscopes, if_pos hempty]
  · intro hsd
    have hne : claims.Scope ≠ "" := by
      intro hempty
      exact hsd.1 (by rw [hempty])
    rw [if_neg hne] at hscopes
    refine ⟨?_, ?_, ?_⟩
    · rw [hscopes, empty_mem_stringsSplitSpace]
      exact nil_not_mem_splitChars _ hsd
    · intro s hs
      rw [hscopes] at hs
      obtain ⟨f, hf, rfl⟩ := List.mem_map.1 hs
      exact sep_not_mem_of_mem_splitChars ' ' _ f hf
    · rw [hscopes]
      unfold stringsSplitSpace
      rw [List.map_map]
      have hid : String.data ∘ String.mk = id := rfl
      rw [hid, List.map_id]
      exact intercalate_splitChars ' ' _

theorem Verify_scopes_witness :
    (sampleAccepting "openid nats:publish").Verify "tok"
        = .ok { Subject := "svc-1", Scope := "openid nats:publish",
                Scopes := ["openid", "nats:publish"] }
    ∧ SpaceDelimited "openid nats:publish".data
    ∧ "" ∉ ["openid", "nats:publish"]
    ∧ (∀ s ∈ ["openid", "nats:publish"], ' ' ∉ s.data)
    ∧ [' '].intercalate (["openid", "nats:publish"].map String.data)
        = "openid nats:publish".data :=
  ⟨rfl, by decide,
   (Verify_scopes (sampleAccepting "openid nats:publish") "tok"
      { Subject := "svc-1", Scope := "openid nats:publish",
        Scopes := ["openid", "nats:publish"] } rfl).2 (by decide)⟩

/-- C11, as stated, fails: a raw scope string with two consecutive spaces yields a scope
list that contains the empty string, and a tab does not separate two scopes. -/
theorem Verify_scopes_counterexample :
    (sampleAccepting "nats:publish  nats:subscribe").Verify "tok"
        = .ok { Subject := "svc-1", Scope := "nats:publish  nats:subscribe",
                Scopes := ["nats:publish", "", "nats:subscribe"] }
    ∧ "" ∈ ["nats:publish", "", "nats:subscribe"]
    ∧ (sampleAccepting "nats:publish\tnats:subscribe").Verify "tok"
        = .ok { Subject := "svc-1", Scope := "nats:publish\tnats:subscribe",
                Scopes := ["nats:publish\tnats:subscribe"] } := by
  refine ⟨rfl, by decide, rfl⟩

/-! ## Validity window of the certificate -/

theorem Unix_Add_Hour (t : Time) : (t.Add (1 * Hour)).Unix = t.Unix + 3600 := by
  unfold Time.Add Time.Unix Hour Minute
  omega

theorem seconds_lt_of_gap (a b : Int) (h : b ≤ a + 3599 * 1000000000) :
    b / 1000000000 < a / 1000000000 + 3600 := by
  omega

theorem Encode_ok (uc : UserClaims) (pair : KeyPair) (now : Time) (token : String)
    (h : uc.Encode pair now = .ok token) :
    ∃ chunks, pair.encodeUser (uc.stamp now) = .ok chunks ∧ token = chunks.token := by
  unfold UserClaims.Encode at h
  cases hc : pair.encodeUser (uc.stamp now) with
  | error e => simp [hc] at h
  | ok chunks =>
    simp only [hc] at h
    exact ⟨chunks, rfl, (Except.ok.inj h).symm⟩

/-- C14, as amended: for every successful decision, the certificate is the token of the
claims the authorizer built with the issued-at replaced by the clock reading that
`Encode` takes itself, after the two readings of the authorizer function. Its expiry is
the first reading in whole seconds plus 3600; its issued-at is the reading of `Encode`
in whole seconds, not the second reading, which the authorizer assigned and `Encode`
overwrote. So the expiry is strictly after the issued-at exactly when the reading of
`Encode` is, in whole seconds, less than 3600 after the first reading; this is so
whenever `Encode` reads the clock at most 3599 seconds after the first reading. -/
theorem NewAuthorizer_validity (verifiers : List OIDCVerifier) (signingKey : KeyPair)
    (issuerPubKey : String) (clock : Nat → Time) (req : AuthorizationRequestClaims)
    (hok : (NewAuthorizer verifiers signingKey issuerPubKey clock req).err = none) :
    ∃ uc chunks, (NewAuthorizer verifiers signingKey issuerPubKey clock req).signed = some uc
      ∧ signingKey.encodeUser (uc.stamp (clock 2)) = .ok chunks
      ∧ (NewAuthorizer verifiers signingKey issuerPubKey clock req).jwt = chunks.token
      ∧ uc.Expires = (clock 0).Unix + 3600
      ∧ uc.IssuedAt = (clock 1).Unix
      ∧ (uc.stamp (clock 2)).Expires = (clock 0).Unix + 3600
      ∧ (uc.stamp (clock 2)).IssuedAt = (clock 2).Unix
      ∧ ((uc.stamp (clock 2)).IssuedAt < (uc.stamp (clock 2)).Expires ↔
          (clock 2).Unix < (clock 0).Unix + 3600)
      ∧ (clock 2 ≤ clock 0 + 3599 * 1000000000 →
          (uc.stamp (clock 2)).IssuedAt < (uc.stamp (clock 2)).Expires) := by
  obtain ⟨claims, issuer, uc, -, hbuild, hsigned, henc, -⟩ :=
    NewAuthorizer_ok verifiers signingKey issuerPubKey clock req hok
  obtain ⟨chunks, hchunks, htoken⟩ := Encode_ok uc signingKey (clock 2) _ henc
  have huc := buildUserClaims_some req claims _ clock uc hbuild
  have hexp : uc.Expires = (clock 0).Unix + 3600 := by
    rw [huc]
    exact Unix_Add_Hour (clock 0)
  have hiat : uc.IssuedAt = (clock 1).Unix := by rw [huc]
  have hexp' : (uc.stamp (clock 2)).Expires = (clock 0).Unix + 3600 := hexp
  have hiat' : (uc.stamp (clock 2)).IssuedAt = (clock 2).Unix := rfl
  refine ⟨uc, chunks, hsigned, hchunks, htoken, hexp, hiat, hexp', hiat',
    by rw [hexp', hiat'], ?_⟩
  intro hgap
  rw [hexp', hiat']
  exact seconds_lt_of_gap (clock 0) (clock 2) hgap

theorem NewAuthorizer_validity_witness :
    (NewAuthorizer [sampleAccepting "nats:admin"] sampleKey "AKEY" sampleClock
        sampleRequest).err = none
    ∧ ∃ uc chunks, (NewAuthorizer [sampleAccepting "nats:admin"] sampleKey "AKEY" sampleClock
          sampleRequest).signed = some uc
      ∧ sampleKey.encodeUser (uc.stamp (sampleClock 2)) = .ok chunks
      ∧ (NewAuthorizer [sampleAccepting "nats:admin"] sampleKey "AKEY" sampleClock
          sampleRequest).jwt = chunks.token
      ∧ uc.Expires = (sampleClock 0).Unix + 3600
      ∧ uc.IssuedAt = (sampleClock 1).Unix
      ∧ (uc.stamp (sampleClock 2)).Expires = (sampleClock 0).Unix + 3600
      ∧ (uc.stamp (sampleClock 2)).IssuedAt = (sampleClock 2).Unix
      ∧ ((uc.stamp (sampleClock 2)).IssuedAt < (uc.stamp (sampleClock 2)).Expires ↔
          (sampleClock 2).Unix < (sampleClock 0).Unix + 3600)
      ∧ (sampleClock 2 ≤ sampleClock 0 + 3599 * 1000000000 →
          (uc.stamp (sampleClock 2)).IssuedAt < (uc.stamp (sampleClock 2)).Expires) :=
  ⟨rfl, NewAuthorizer_validity [sampleAccepting "nats:admin"] sampleKey "AKEY" sampleClock
    sampleRequest rfl⟩

/-- C14, as stated, fails. On a clock whose readings are one hour apart the decision is
successful, the issued-at the authorizer assigns from the second, later reading equals
the expiry, and the issued-at `Encode` puts in the certificate is one hour after the
expiry. On a clock where the two readings of the authorizer function are one second
apart and `Encode` reads the clock two hours later, the issued-at in the certificate is
again after the expiry. -/
theorem NewAuthorizer_validity_counterexample :
    sampleSlowClock 0 ≤ sampleSlowClock 1
    ∧ (NewAuthorizer [sampleAccepting "nats:admin"] sampleKey "AKEY" sampleSlowClock
        sampleRequest).err = none
    ∧ (∃ uc, (NewAuthorizer [sampleAccepting "nats:admin"] sampleKey "AKEY" sampleSlowClock
          sampleRequest).signed = some uc
      ∧ uc.Expires = 1700003600
      ∧ uc.IssuedAt = 1700003600
      ∧ ¬ (uc.IssuedAt < uc.Expires)
      ∧ (uc.stamp (sampleSlowClock 2)).Expires = 1700003600
      ∧ (uc.stamp (sampleSlowClock 2)).IssuedAt = 1700007200
      ∧ ¬ ((uc.stamp (sampleSlowClock 2)).IssuedAt < (uc.stamp (sampleSlowClock 2)).Expires))
    ∧ sampleStalledClock 0 ≤ sampleStalledClock 1
    ∧ (NewAuthorizer [sampleAccepting "nats:admin"] sampleKey "AKEY" sampleStalledClock
        sampleRequest).err = none
    ∧ ∃ uc, (NewAuthorizer [sampleAccepting "nats:admin"] sampleKey "AKEY" sampleStalledClock
          sampleRequest).signed = some uc
      ∧ uc.Expires = 1700003600
      ∧ uc.IssuedAt = 1700000001
      ∧ (uc.stamp (sampleStalledClock 2)).Expires = 1700003600
      ∧ (uc.stamp (sampleStalledClock 2)).IssuedAt = 1700007200
      ∧ ¬ ((uc.stamp (sampleStalledClock 2)).IssuedAt
            < (uc.stamp (sampleStalledClock 2)).Expires) := by
  refine ⟨by decide, rfl, ⟨_, rfl, by decide, by decide, by decide, by decide, by decide,
    by decide⟩, by decide, rfl, _, rfl, by decide, by decide, by decide, by decide, by decide⟩

/-! ## The request handler -/

theorem token_ne_empty (c : Chunks) : c.token ≠ "" := by
  intro h
  have hd := congrArg String.data h
  simp [Chunks.token, String.data_append] at hd

theorem NewAuthorizer_jwt_ne_empty (verifiers : List OIDCVerifier) (signingKey : KeyPair)
    (issuerPubKey : String) (clock : Nat → Time) (req : AuthorizationRequestClaims)
    (hok : (NewAuthorizer verifiers signingKey issuerPubKey clock req).err = none) :
    (NewAuthorizer verifiers signingKey issuerPubKey clock req).jwt ≠ ""
    ∧ req.UserNkey ≠ ""
    ∧ (NewAuthorizer verifiers signingKey issuerPubKey clock req).panicked = false := by
  obtain ⟨claims, issuer, uc, -, hbuild, -, henc, hpanic⟩ :=
    NewAuthorizer_ok verifiers signingKey issuerPubKey clock req hok
  obtain ⟨chunks, -, htoken⟩ := Encode_ok uc signingKey (clock 2) _ henc
  refine ⟨by rw [htoken]; exact token_ne_empty chunks, ?_, hpanic⟩
  intro hnil
  rw [(buildUserClaims_eq_none req claims _ clock).2 hnil] at hbuild
  cases hbuild

theorem NewAuthorizer_err (verifiers : List OIDCVerifier) (signingKey : KeyPair)
    (issuerPubKey : String) (clock : Nat → Time) (req : AuthorizationRequestClaims)
    (e : String)
    (herr : (NewAuthorizer verifiers signingKey issuerPubKey clock req).err = some e) :
    e ≠ "" ∧ (NewAuthorizer verifiers signingKey issuerPubKey clock req).jwt = "" := by
  rcases NewAuthorizer_cases verifiers signingKey issuerPubKey clock req with
    ⟨m, e', h, hne⟩ | ⟨-, h⟩ | ⟨claims, issuer, uc, e', -, -, -, h⟩
      | ⟨claims, issuer, uc, encoded, m, -, -, -, h⟩
  · rw [h] at herr ⊢
    cases herr
    exact ⟨hne, rfl⟩
  · rw [h] at herr ⊢
    cases herr
    exact ⟨by decide, rfl⟩
  · rw [h] at herr ⊢
    cases herr
    exact ⟨append_ne_empty _ _ (by decide), rfl⟩
  · rw [h] at herr
    cases herr

theorem respondWithError_eq (signingKey : KeyPair)
    (issuerPubKey userNKey serverID errMsg : String) :
    respondWithError signingKey issuerPubKey userNKey serverID errMsg =
      match ({ Subject := if userNKey = "" then "UNKNOWN" else userNKey,
               Audience := serverID, Error := errMsg } :
          AuthorizationResponseClaims).Encode signingKey with
      | .error _ => none
      | .ok token =>
        some { claims := { Subject := if userNKey = "" then "UNKNOWN" else userNKey,
                           Audience := serverID, Error := errMsg },
               token := token } := by
  unfold respondWithError NewAuthorizationResponseClaims
  by_cases h : userNKey = ""
  · subst h
    rfl
  · simp [h]

theorem respondWithError_some (signingKey : KeyPair)
    (issuerPubKey userNKey serverID errMsg : String) (r : Reply)
    (h : respondWithError signingKey issuerPubKey userNKey serverID errMsg = some r) :
    r.claims = { Subject := if userNKey = "" then "UNKNOWN" else userNKey,
                 Audience := serverID, Error := errMsg }
    ∧ r.claims.Encode signingKey = .ok r.token := by
  rw [respondWithError_eq] at h
  split at h
  · cases h
  · rename_i token henc
    cases h
    exact ⟨rfl, henc⟩

/-- C12, as amended: for every successfully decoded request for which the handler, run
with the authorizer of the service, sends a reply, the reply is the signed envelope of
response claims whose audience is the server identifier of the request and which carry
exactly one payload: a non-empty certificate with an empty error string, or a non-empty
error string with an empty certificate. A certificate is carried only when the
authorizer succeeded, and is the one it returned. An error string is the reason of the
authorizer when it denied, and is `internal error` when the authorizer succeeded and
encoding the envelope of its certificate failed. -/
theorem handleAuthRequest_reply (decode : String → Except String AuthorizationRequestClaims)
    (msgData : String) (verifiers : List OIDCVerifier) (signingKey : KeyPair)
    (issuerPubKey : String) (clock : Nat → Time) (req : AuthorizationRequestClaims)
    (r : Reply)
    (hdec : decode msgData = .ok req)
    (hreply : (handleAuthRequest decode msgData
        (NewAuthorizer verifiers signingKey issuerPubKey clock) signingKey issuerPubKey).reply
          = some r) :
    r.claims.Audience = req.Server.ID
    ∧ r.claims.Encode signingKey = .ok r.token
    ∧ ((r.claims.Jwt ≠ "" ∧ r.claims.Error = "") ∨ (r.claims.Error ≠ "" ∧ r.claims.Jwt = ""))
    ∧ (r.claims.Jwt ≠ "" →
        (NewAuthorizer verifiers signingKey issuerPubKey clock req).err = none
        ∧ r.claims.Jwt = (NewAuthorizer verifiers signingKey issuerPubKey clock req).jwt)
    ∧ (∀ e, (NewAuthorizer verifiers signingKey issuerPubKey clock req).err = some e →
        r.claims.Error = e)
    ∧ (r.claims.Error ≠ "" →
        (NewAuthorizer verifiers signingKey issuerPubKey clock req).err = some r.claims.Error
        ∨ ((NewAuthorizer verifiers signingKey issuerPubKey clock req).err = none
            ∧ r.claims.Error = "internal error"))
    ∧ (NewAuthorizer verifiers signingKey issuerPubKey clock req).panicked = false := by
  unfold handleAuthRequest at hreply
  simp only [hdec] at hreply
  cases hpanic : (NewAuthorizer verifiers signingKey issuerPubKey clock req).panicked with
  | true =>
    simp only [hpanic, if_true] at hreply
    cases hreply
  | false =>
    simp only [hpanic, Bool.false_eq_true, if_false] at hreply
    cases herr : (NewAuthorizer verifiers signingKey issuerPubKey clock req).err with
    | some e =>
      simp only [herr] at hreply
      obtain ⟨hclaims, henc⟩ :=
        respondWithError_some signingKey issuerPubKey req.UserNkey req.Server.ID e r hreply
      obtain ⟨hne, -⟩ := NewAuthorizer_err _ _ _ _ _ e herr
      rw [hclaims] at henc ⊢
      refine ⟨rfl, henc, Or.inr ⟨hne, rfl⟩, fun h => absurd rfl h, ?_, fun _ => Or.inl rfl,
        rfl⟩
      intro e' he'
      cases he'
      rfl
    | none =>
      simp only [herr] at hreply
      obtain ⟨hjwt, hnkey, -⟩ := NewAuthorizer_jwt_ne_empty _ _ _ _ _ herr
      simp only [NewAuthorizationResponseClaims, hnkey, if_false] at hreply
      split at hreply
      · obtain ⟨hclaims, henc⟩ :=
          respondWithError_some signingKey issuerPubKey req.UserNkey req.Server.ID
            "internal error" r hreply
        have hint : "internal error" ≠ "" := by decide
        rw [hclaims] at henc ⊢
        refine ⟨rfl, henc, Or.inr ⟨hint, rfl⟩, fun h => absurd rfl h, ?_,
          fun _ => Or.inr ⟨rfl, rfl⟩, rfl⟩
        intro e he
        cases he
      · rename_i token henc
        cases hreply
        refine ⟨rfl, henc, Or.inl ⟨hjwt, rfl⟩, fun _ => ⟨rfl, rfl⟩, ?_,
          fun h => absurd rfl h, rfl⟩
        intro e he
        cases he

theorem handleAuthRequest_reply_witness :
    (sampleDecode "request" = .ok sampleRequest
      ∧ (handleAuthRequest sampleDecode "request"
          (NewAuthorizer [sampleAccepting "nats:admin"] sampleKey "AKEY" sampleClock)
          sampleKey "AKEY").reply = some sampleCertificateReply
      ∧ sampleCertificateReply.claims.Audience = sampleRequest.Server.ID
      ∧ sampleCertificateReply.claims.Encode sampleKey = .ok sampleCertificateReply.token
      ∧ ((sampleCertificateReply.claims.Jwt ≠ "" ∧ sampleCertificateReply.claims.Error = "")
          ∨ (sampleCertificateReply.claims.Error ≠ "" ∧ sampleCertificateReply.claims.Jwt = ""))
      ∧ (sampleCertificateReply.claims.Jwt ≠ "" →
          (NewAuthorizer [sampleAccepting "nats:admin"] sampleKey "AKEY" sampleClock sampleRequest).err = none
          ∧ sampleCertificateReply.claims.Jwt = (NewAuthorizer [sampleAccepting "nats:admin"] sampleKey "AKEY" sampleClock sampleRequest).jwt)
      ∧ (∀ e, (NewAuthorizer [sampleAccepting "nats:admin"] sampleKey "AKEY" sampleClock sampleRequest).err = some e →
          sampleCertificateReply.claims.Error = e)
      ∧ (sampleCertificateReply.claims.Error ≠ "" →
          (NewAuthorizer [sampleAccepting "nats:admin"] sampleKey "AKEY" sampleClock sampleRequest).err = some sampleCertificateReply.claims.Error
          ∨ ((NewAuthorizer [sampleAccepting "nats:admin"] sampleKey "AKEY" sampleClock sampleRequest).err = none
              ∧ sampleCertificateReply.claims.Error = "internal error"))
      ∧ (NewAuthorizer [sampleAccepting "nats:admin"] sampleKey "AKEY" sampleClock sampleRequest).panicked = false)
    ∧ (sampleDecode "request" = .ok sampleRequest
      ∧ (handleAuthRequest sampleDecode "request"
          (NewAuthorizer [sampleRejecting] sampleKey "AKEY" sampleClock)
          sampleKey "AKEY").reply = some sampleDenialReply
      ∧ sampleDenialReply.claims.Audience = sampleRequest.Server.ID
      ∧ sampleDenialReply.claims.Encode sampleKey = .ok sampleDenialReply.token
      ∧ ((sampleDenialReply.claims.Jwt ≠ "" ∧ sampleDenialReply.claims.Error = "")
          ∨ (sampleDenialReply.claims.Error ≠ "" ∧ sampleDenialReply.claims.Jwt = ""))
      ∧ (sampleDenialReply.claims.Jwt ≠ "" →
          (NewAuthorizer [sampleRejecting] sampleKey "AKEY" sampleClock sampleRequest).err = none
          ∧ sampleDenialReply.claims.Jwt = (NewAuthorizer [sampleRejecting] sampleKey "AKEY" sampleClock sampleRequest).jwt)
      ∧ (∀ e, (NewAuthorizer [sampleRejecting] sampleKey "AKEY" sampleClock sampleRequest).err = some e →
          sampleDenialReply.claims.Error = e)
      ∧ (sampleDenialReply.claims.Error ≠ "" →
          (NewAuthorizer [sampleRejecting] sampleKey "AKEY" sampleClock sampleRequest).err = some sampleDenialReply.claims.Error
          ∨ ((NewAuthorizer [sampleRejecting] sampleKey "AKEY" sampleClock sampleRequest).err = none
              ∧ sampleDenialReply.claims.Error = "internal error"))
      ∧ (NewAuthorizer [sampleRejecting] sampleKey "AKEY" sampleClock sampleRequest).panicked = false)
    ∧ (sampleDecode "request" = .ok sampleRequest
      ∧ (handleAuthRequest sampleDecode "request"
          (NewAuthorizer [sampleAccepting "nats:admin"] sampleEnvelopeFailingKey "AKEY" sampleClock)
          sampleEnvelopeFailingKey "AKEY").reply = some sampleInternalErrorReply
      ∧ sampleInternalErrorReply.claims.Audience = sampleRequest.Server.ID
      ∧ sampleInternalErrorReply.claims.Encode sampleEnvelopeFailingKey = .ok sampleInternalErrorReply.token
      ∧ ((sampleInternalErrorReply.claims.Jwt ≠ "" ∧ sampleInternalErrorReply.claims.Error = "")
          ∨ (sampleInternalErrorReply.claims.Error ≠ "" ∧ sampleInternalErrorReply.claims.Jwt = ""))
      ∧ (sampleInternalErrorReply.claims.Jwt ≠ "" →
          (NewAuthorizer [sampleAccepting "nats:admin"] sampleEnvelopeFailingKey "AKEY" sampleClock sampleRequest).err = none
          ∧ sampleInternalErrorReply.claims.Jwt = (NewAuthorizer [sampleAccepting "nats:admin"] sampleEnvelopeFailingKey "AKEY" sampleClock sampleRequest).jwt)
      ∧ (∀ e, (NewAuthorizer [sampleAccepting "nats:admin"] sampleEnvelopeFailingKey "AKEY" sampleClock sampleRequest).err = some e →
          sampleInternalErrorReply.claims.Error = e)
      ∧ (sampleInternalErrorReply.claims.Error ≠ "" →
          (NewAuthorizer [sampleAccepting "nats:admin"] sampleEnvelopeFailingKey "AKEY" sampleClock sampleRequest).err = some sampleInternalErrorReply.claims.Error
          ∨ ((NewAuthorizer [sampleAccepting "nats:admin"] sampleEnvelopeFailingKey "AKEY" sampleClock sampleRequest).err = none
              ∧ sampleInternalErrorReply.claims.Error = "internal error"))
      ∧ (NewAuthorizer [sampleAccepting "nats:admin"] sampleEnvelopeFailingKey "AKEY" sampleClock sampleRequest).panicked = false) :=
  ⟨⟨rfl, by decide,
     handleAuthRequest_reply sampleDecode "request" [sampleAccepting "nats:admin"] sampleKey "AKEY" sampleClock
       sampleRequest sampleCertificateReply rfl (by decide)⟩,
   ⟨rfl, by decide,
     handleAuthRequest_reply sampleDecode "request" [sampleRejecting] sampleKey "AKEY" sampleClock
       sampleRequest sampleDenialReply rfl (by decide)⟩,
   ⟨rfl, by decide,
     handleAuthRequest_reply sampleDecode "request" [sampleAccepting "nats:admin"] sampleEnvelopeFailingKey "AKEY" sampleClock
       sampleRequest sampleInternalErrorReply rfl (by decide)⟩⟩

/-- C12, as stated, fails: the sample request is decoded and the authorizer succeeds, the
response claims that embed its certificate cannot be encoded, and the handler replies
with an envelope that carries the error string `internal error` and no certificate,
although the authorizer did not deny the request. -/
theorem handleAuthRequest_reply_counterexample :
    sampleDecode "request" = .ok sampleRequest
    ∧ (NewAuthorizer [sampleAccepting "nats:admin"] sampleEnvelopeFailingKey "AKEY" sampleClock
        sampleRequest).err = none
    ∧ (NewAuthorizer [sampleAccepting "nats:admin"] sampleEnvelopeFailingKey "AKEY" sampleClock
        sampleRequest).jwt = "hdr.user:UABC.sig"
    ∧ (NewAuthorizer [sampleAccepting "nats:admin"] sampleEnvelopeFailingKey "AKEY" sampleClock
        sampleRequest).panicked = false
    ∧ (handleAuthRequest sampleDecode "request"
        (NewAuthorizer [sampleAccepting "nats:admin"] sampleEnvelopeFailingKey "AKEY"
          sampleClock)
        sampleEnvelopeFailingKey "AKEY").reply
      = some { claims := { Subject := "UABC", Audience := "NSRV", Jwt := "",
                           Error := "internal error" },
               token := "hdr.response:UABC.sig" } := by
  refine ⟨rfl, rfl, rfl, rfl, by decide⟩

/-- C13, as amended: for every inbound payload that fails to decode as an authorization
request, the handler does not invoke the authorizer (what it does is the same for every
authorizer) and emits no audit event; when encoding the denial envelope succeeds it
replies with that envelope, a denial whose identity handle is `UNKNOWN`, whose error
string is `invalid request: ` followed by the decode error, and which carries no
certificate; when encoding the envelope fails it sends no reply. -/
theorem handleAuthRequest_decode_failure
    (decode : String → Except String AuthorizationRequestClaims) (msgData : String)
    (authorizerFn : AuthorizerFunc) (signingKey : KeyPair) (issuerPubKey e : String)
    (hdec : decode msgData = .error e) :
    (handleAuthRequest decode msgData authorizerFn signingKey issuerPubKey).audit = []
    ∧ (∀ authorizerFn' : AuthorizerFunc,
        handleAuthRequest decode msgData authorizerFn' signingKey issuerPubKey
          = handleAuthRequest decode msgData authorizerFn signingKey issuerPubKey)
    ∧ (∀ token,
        ({ Subject := "UNKNOWN", Audience := "", Error := "invalid request: " ++ e } :
            AuthorizationResponseClaims).Encode signingKey = .ok token →
        (handleAuthRequest decode msgData authorizerFn signingKey issuerPubKey).reply
          = some { claims := { Subject := "UNKNOWN", Audience := "",
                               Error := "invalid request: " ++ e },
                   token := token })
    ∧ (∀ err,
        ({ Subject := "UNKNOWN", Audience := "", Error := "invalid request: " ++ e } :
            AuthorizationResponseClaims).Encode signingKey = .error err →
        (handleAuthRequest decode msgData authorizerFn signingKey issuerPubKey).reply = none) := by
  have hout : ∀ f : AuthorizerFunc,
      handleAuthRequest decode msgData f signingKey issuerPubKey
        = { reply := respondWithError signingKey issuerPubKey "" "" ("invalid request: " ++ e),
            audit := [] } := by
    intro f
    simp [handleAuthRequest, hdec]
  refine ⟨by rw [hout], fun f => by rw [hout, hout], ?_, ?_⟩
  · intro token henc
    rw [hout, respondWithError_eq]
    simp only [if_true]
    rw [henc]
  · intro err henc
    rw [hout, respondWithError_eq]
    simp only [if_true]
    rw [henc]

theorem handleAuthRequest_decode_failure_witness :
    sampleDecode "garbage" = .error "expected 3 chunks"
    ∧ (handleAuthRequest sampleDecode "garbage"
        (NewAuthorizer [sampleAccepting "nats:admin"] sampleKey "AKEY" sampleClock)
        sampleKey "AKEY").audit = []
    ∧ (handleAuthRequest sampleDecode "garbage"
        (NewAuthorizer [sampleAccepting "nats:admin"] sampleKey "AKEY" sampleClock)
        sampleKey "AKEY").reply
      = some { claims := { Subject := "UNKNOWN", Audience := "",
                           Error := "invalid request: " ++ "expected 3 chunks" },
               token := "hdr.response:UNKNOWN.sig" } :=
  ⟨rfl,
   (handleAuthRequest_decode_failure sampleDecode "garbage"
      (NewAuthorizer [sampleAccepting "nats:admin"] sampleKey "AKEY" sampleClock)
      sampleKey "AKEY" "expected 3 chunks" rfl).1,
   (handleAuthRequest_decode_failure sampleDecode "garbage"
      (NewAuthorizer [sampleAccepting "nats:admin"] sampleKey "AKEY" sampleClock)
      sampleKey "AKEY" "expected 3 chunks" rfl).2.2.1 "hdr.response:UNKNOWN.sig" rfl⟩

/-- C13, as stated, fails: with a signing key that cannot encode the denial envelope, a
payload that fails to decode gets no reply. -/
theorem handleAuthRequest_decode_failure_counterexample :
    sampleDecode "garbage" = .error "expected 3 chunks"
    ∧ (handleAuthRequest sampleDecode "garbage"
        (NewAuthorizer [sampleAccepting "nats:admin"] sampleDeadKey "AKEY" sampleClock)
        sampleDeadKey "AKEY").reply = none := by
  exact ⟨rfl, rfl⟩

end AuthService
